import Mathlib

/-!
# EasyWave GPU node (`easywave/HIP/src/ewGpuNode.cpp`)

A shallow embedding of the host side of `CGpuNode`: the layout transcoder
`AlignData`, the active-region bookkeeping that `run()` performs after the
expansion signal has been read back from the device, the allocator calls of
`mallocMem()` and `freeMem()`, the copies back to the host with the flag
`copied`, and the device runtime calls and launch geometry of `run()`.

Conventions of the embedding.

* A C pointer `float *p` is a `Buffer α`: the function sending an element
  offset `k` to the element stored at `p + k`.  A buffer alone carries no
  extent: the C++ code performs no bounds check, so `AlignData` performs
  none.  The offsets a call loads and stores are exposed separately
  (`AlignDataReads`, `AlignDataWrites`), and `AlignDataChecked` runs the call
  on arrays of given extents, where an access outside an array is undefined
  behaviour and yields no result.
* The element type `float` is an arbitrary type `α`: the code only moves
  elements, it never computes with them.
* `int` loop counters and extents that the code uses as sizes are `Nat`; the
  region bounds, on which the code subtracts, are `Int`.  Arithmetic is exact
  (signed overflow is undefined behaviour in C++, so no wrap-around is
  modelled).
* What the device holds is written by kernels that are not part of this
  file: the signal read back by `run()` and the contents of the device buffers
  read by the copies are inputs of the operations.
* The only floating-point computation modelled is the conversion `(float)n`
  of an `int` in the launch geometry (`floatOfNat`).
-/

namespace EasyWave

/-! ## Layout transcoder -/

/-- A buffer addressed by element offset from its base pointer. -/
abbrev Buffer (α : Type) := Nat → α

/-- The algorithm `std::move(src + first, src + first + n, out + dst)`:
element `k` of the source range is stored at `out + dst + k`, for
`k = 0, …, n - 1` in ascending order.  The recursion is on the number of
elements already moved. -/
def moveRange {α : Type} (src : Buffer α) (first : Nat) (out : Buffer α) (dst : Nat) :
    Nat → Buffer α
  | 0 => out
  | n + 1 => Function.update (moveRange src first out dst n) (dst + n) (src (first + n))

/-- The loop of `CGpuNode::AlignData` after `iRow` iterations:
`for (iRow = 0; iRow < iNumberOfRows; ++iRow) std::move(in + iRow*cols,
in + iRow*cols + cols, out + iRow*colsPitched)`. -/
def alignRows {α : Type} (pInputData pOutputAlignedData : Buffer α)
    (iNumberOfCols iNumberOfColsPitched : Nat) : Nat → Buffer α
  | 0 => pOutputAlignedData
  | iRow + 1 =>
    moveRange pInputData (iRow * iNumberOfCols)
      (alignRows pInputData pOutputAlignedData iNumberOfCols iNumberOfColsPitched iRow)
      (iRow * iNumberOfColsPitched) iNumberOfCols

/-- The transcoder `CGpuNode::AlignData(pInputData, pOutputAlignedData, iNumberOfRows,
iNumberOfCols, iNumberOfColsPitched)`: the contents of the output buffer after
the call (the C++ function itself returns the constant `true`).  Every row
moves `iNumberOfCols` elements, the row length of the *input*; rows of the
output start `iNumberOfColsPitched` elements apart. -/
def AlignData {α : Type} (pInputData pOutputAlignedData : Buffer α)
    (iNumberOfRows iNumberOfCols iNumberOfColsPitched : Nat) : Buffer α :=
  alignRows pInputData pOutputAlignedData iNumberOfCols iNumberOfColsPitched iNumberOfRows

/-- Output offsets stored to by `std::move` of `n` elements to `out + dst`,
in the order they are written. -/
def moveRangeWrites (dst n : Nat) : List Nat :=
  (List.range n).map (fun k => dst + k)

/-- Output offsets stored to by `AlignData`, row after row. -/
def AlignDataWrites (iNumberOfRows iNumberOfCols iNumberOfColsPitched : Nat) : List Nat :=
  ((List.range iNumberOfRows).map
    (fun iRow => moveRangeWrites (iRow * iNumberOfColsPitched) iNumberOfCols)).flatten

/-- Input offsets loaded by `std::move` of `n` elements from `src + first`. -/
def moveRangeReads (first n : Nat) : List Nat :=
  (List.range n).map (fun k => first + k)

/-- Input offsets loaded by `AlignData`, row after row: row `iRow` reads the
`iNumberOfCols` elements from `iRow * iNumberOfCols` on. -/
def AlignDataReads (iNumberOfRows iNumberOfCols : Nat) : List Nat :=
  ((List.range iNumberOfRows).map
    (fun iRow => moveRangeReads (iRow * iNumberOfCols) iNumberOfCols)).flatten

/-- The call `AlignData` on arrays of known extent: the input array holds
`inLen` elements and the output array `outLen`.  A load or a store outside its
array is undefined behaviour in C++, and the call then has no result
(`none`); otherwise the result is the output array after the call. -/
def AlignDataChecked {α : Type} (inLen outLen : Nat) (pInputData pOutputAlignedData : Buffer α)
    (iNumberOfRows iNumberOfCols iNumberOfColsPitched : Nat) : Option (Buffer α) :=
  if (AlignDataReads iNumberOfRows iNumberOfCols).all (fun i => decide (i < inLen)) = true ∧
      (AlignDataWrites iNumberOfRows iNumberOfCols iNumberOfColsPitched).all
        (fun i => decide (i < outLen)) = true then
    some (AlignData pInputData pOutputAlignedData iNumberOfRows iNumberOfCols
      iNumberOfColsPitched)
  else none

/-- The round trip of a field through the transcoder: the to-device call of
`copyToGPU()`, `AlignData(A, D, rows, cols, storageWidth)`, followed by the
from-device call of `copyFromGPU()` and `copyIntermediate()`,
`AlignData(D, B, rows, storageWidth, cols)`.  The host arrays `A` and `B` hold
`rows * cols` elements and the pitched staging array `D` holds
`rows * storageWidth` elements (`new float[dp.nI * dp.pI]`). -/
def transcodeRoundTrip {α : Type} (A D B : Buffer α) (rows cols storageWidth : Nat) :
    Option (Buffer α) :=
  match AlignDataChecked (rows * cols) (rows * storageWidth) A D rows cols storageWidth with
  | none => none
  | some staged =>
    AlignDataChecked (rows * storageWidth) (rows * cols) staged B rows storageWidth cols

/-! ## Active region bookkeeping of `run()` -/

/-- The CUDA/HIP vector type `int4`, the type of the expansion signal
`g_MinMax`. -/
structure Int4 where
  x : Int
  y : Int
  z : Int
  w : Int
  deriving DecidableEq, Repr

/-- The integer fields of `Params` (`data.params`, called `dp` in the code):
the grid extents `nI` (rows) and `nJ` (columns), the active region, the
simulation time, the left padding and the storage width `pI`. -/
structure Params where
  mTime : Int
  nI : Int
  nJ : Int
  iMin : Int
  iMax : Int
  jMin : Int
  jMax : Int
  pI : Nat
  lpad : Nat
  deriving DecidableEq, Repr

/-- The host-side state of a `CGpuNode` that `run()` reads and writes: the
device parameter block, the host copies `Imin, Imax, Jmin, Jmax` of the
region, the byte pitch and the flag `copied`. -/
structure CGpuNode where
  params : Params
  Imin : Int
  Imax : Int
  Jmin : Int
  Jmax : Int
  pitch : Nat
  copied : Bool
  deriving DecidableEq, Repr

/-- The assignment `Imin = dp.iMin = v`. -/
def CGpuNode.assignIMin (node : CGpuNode) (v : Int) : CGpuNode :=
  { node with params := { node.params with iMin := v }, Imin := v }

/-- The assignment `Imax = dp.iMax = v`. -/
def CGpuNode.assignIMax (node : CGpuNode) (v : Int) : CGpuNode :=
  { node with params := { node.params with iMax := v }, Imax := v }

/-- The assignment `Jmin = dp.jMin = v`. -/
def CGpuNode.assignJMin (node : CGpuNode) (v : Int) : CGpuNode :=
  { node with params := { node.params with jMin := v }, Jmin := v }

/-- The assignment `Jmax = dp.jMax = v`. -/
def CGpuNode.assignJMax (node : CGpuNode) (v : Int) : CGpuNode :=
  { node with params := { node.params with jMax := v }, Jmax := v }

/-- The host side of `CGpuNode::run()`.  `parTime` is `Par.time` and `MinMax`
is the value of `g_MinMax` that the `hipMemcpy` after the kernels reads back
(the kernels live in `ewCudaKernels.cuh`, so their result is an input here).
The four guarded assignments are executed in the order of the source, then
`copied` is cleared. -/
def run (node : CGpuNode) (parTime : Int) (MinMax : Int4) : CGpuNode :=
  let n0 : CGpuNode := { node with params := { node.params with mTime := parTime } }
  let n1 := if MinMax.x ≠ 0 then n0.assignIMin (max (n0.params.iMin - 1) 2) else n0
  let n2 := if MinMax.y ≠ 0 then n1.assignIMax (min (n1.params.iMax + 1) (n1.params.nI - 1)) else n1
  let n3 := if MinMax.z ≠ 0 then n2.assignJMin (max (n2.params.jMin - 32) 2) else n2
  let n4 := if MinMax.w ≠ 0 then n3.assignJMax (min (n3.params.jMax + 1) (n3.params.nJ - 1)) else n3
  { n4 with copied := false }

/-- A sequence of steps: `run()` once for each pair of a time and a signal. -/
def runSteps (node : CGpuNode) (steps : List (Int × Int4)) : CGpuNode :=
  steps.foldl (fun n st => run n st.1 st.2) node

/-- The active region `(iMin, iMax, jMin, jMax)`. -/
structure Region where
  iMin : Int
  iMax : Int
  jMin : Int
  jMax : Int
  deriving DecidableEq, Repr

/-- The device region held in `dp`. -/
def CGpuNode.region (node : CGpuNode) : Region :=
  ⟨node.params.iMin, node.params.iMax, node.params.jMin, node.params.jMax⟩

/-- The host copies `(Imin, Imax, Jmin, Jmax)`. -/
def CGpuNode.hostRegion (node : CGpuNode) : Region :=
  ⟨node.Imin, node.Imax, node.Jmin, node.Jmax⟩

/-- The coarse growth step of the low `j` bound named in spec §4.4. -/
def growthStepJ : Int := 32

/-- The region rule as spec §4.4 step 3 words it (not taken from the code):
the high bounds are clamped to `nRows - 2` and `nCols - 2`. -/
def specRegionUpdate (nRows nCols : Int) (r : Region)
    (growLow_i growHigh_i growLow_j growHigh_j : Bool) : Region where
  iMin := if growLow_i then max (r.iMin - 1) 2 else r.iMin
  iMax := if growHigh_i then min (r.iMax + 1) (nRows - 2) else r.iMax
  jMin := if growLow_j then max (r.jMin - growthStepJ) 2 else r.jMin
  jMax := if growHigh_j then min (r.jMax + 1) (nCols - 2) else r.jMax

/-- The active-region invariant of spec §3 for a grid of `nRows × nCols`. -/
def RegionInv (nRows nCols : Int) (r : Region) : Prop :=
  2 ≤ r.iMin ∧ r.iMin ≤ r.iMax ∧ r.iMax ≤ nRows - 1 ∧
  2 ≤ r.jMin ∧ r.jMin ≤ r.jMax ∧ r.jMax ≤ nCols - 1

instance (nRows nCols : Int) (r : Region) : Decidable (RegionInv nRows nCols r) := by
  unfold RegionInv; infer_instance

/-- A node on an `nI × nJ` grid whose device region and host copies both hold
`(iMin, iMax, jMin, jMax)`; the remaining fields are zero and `copied` is
set, as the constructor leaves it.  Used for concrete evaluations. -/
def nodeWith (nI nJ iMin iMax jMin jMax : Int) : CGpuNode where
  params := ⟨0, nI, nJ, iMin, iMax, jMin, jMax, 0, 0⟩
  Imin := iMin
  Imax := iMax
  Jmin := jMin
  Jmax := jMax
  pitch := 0
  copied := true

/-! ## Construction, allocation and transfers -/

/-- The constructor `CGpuNode::CGpuNode()`: it sets `pitch = 0` and
`copied = true`; every other field keeps the content `raw` it happens to
have. -/
def CGpuNode.construct (raw : CGpuNode) : CGpuNode :=
  { raw with pitch := 0, copied := true }

/-- The region bookkeeping at the head of `CGpuNode::copyToGPU()`:
`Jmin -= (Jmin - 2) % 32` (the C++ `%` truncates towards zero), then
`dp.iMin = Imin; dp.iMax = Imax; dp.jMin = Jmin; dp.jMax = Jmax`.  The staging
of the fields that follows is `AlignData` applied to each of them. -/
def copyToGPU (node : CGpuNode) : CGpuNode :=
  let Jmin := node.Jmin - Int.tmod (node.Jmin - 2) 32
  { node with
    Jmin := Jmin
    params := { node.params with
      iMin := node.Imin, iMax := node.Imax, jMin := Jmin, jMax := node.Jmax } }

/-- The device buffers of `CGpuNode`: the throwaway pointer of the pitch
probe, the nine 2D fields, the five 1D fields and the expansion signal. -/
inductive DevBuf where
  | pTempPointer
  | d | h | hMax | fM | fN | cR1 | cR2 | cR4 | tArr
  | cR6 | cB1 | cB2 | cB3 | cB4
  | g_MinMax
  deriving DecidableEq, Repr

/-- A call to the device allocator: `hipMallocPitch(&b, &pitch, width, height)`,
`hipMalloc(&b, bytes)` or `hipFree(b)`. -/
inductive MemOp where
  | hipMallocPitch (b : DevBuf) (width height : Nat)
  | hipMalloc (b : DevBuf) (bytes : Nat)
  | hipFree (b : DevBuf)
  deriving DecidableEq, Repr

/-- The value of `sizeof(float)`. -/
def sizeofFloat : Nat := 4

/-- The value of `sizeof(int4)`. -/
def sizeofInt4 : Nat := 16

/-- The method `CGpuNode::mallocMem()`.  `NLon` and `NLat` are the grid
extents of the host node and `probePitch` is the byte pitch that
`hipMallocPitch` reports.  The result is `none` when `LOG_ASSERT(pitch != 0)`
aborts; otherwise it is the node after the call and the allocator calls
issued, in order.  Sizes are `size_t` products, computed exactly. -/
def mallocMem (node : CGpuNode) (NLon NLat : Int) (probePitch : Nat) :
    Option (CGpuNode × List MemOp) :=
  let dp : Params := { node.params with nI := NLon, nJ := NLat, lpad := 0 }
  let nJ_aligned : Nat := dp.nJ.toNat + dp.lpad
  let pitch := probePitch
  if pitch = 0 then none
  else
    let bytes2D := pitch * sizeofFloat * dp.nI.toNat
    some
      ({ node with pitch := pitch, params := { dp with pI := pitch / sizeofFloat } },
        [ MemOp.hipMallocPitch .pTempPointer (nJ_aligned * sizeofFloat) dp.nI.toNat,
          MemOp.hipFree .pTempPointer,
          MemOp.hipMalloc .d bytes2D,
          MemOp.hipMalloc .h bytes2D,
          MemOp.hipMalloc .hMax bytes2D,
          MemOp.hipMalloc .fM bytes2D,
          MemOp.hipMalloc .fN bytes2D,
          MemOp.hipMalloc .cR1 bytes2D,
          MemOp.hipMalloc .cR2 bytes2D,
          MemOp.hipMalloc .cR4 bytes2D,
          MemOp.hipMalloc .tArr bytes2D,
          MemOp.hipMalloc .cR6 (dp.nJ.toNat * sizeofFloat),
          MemOp.hipMalloc .cB1 (dp.nI.toNat * sizeofFloat),
          MemOp.hipMalloc .cB2 (dp.nJ.toNat * sizeofFloat),
          MemOp.hipMalloc .cB3 (dp.nI.toNat * sizeofFloat),
          MemOp.hipMalloc .cB4 (dp.nJ.toNat * sizeofFloat),
          MemOp.hipMalloc .g_MinMax sizeofInt4 ])

/-- The allocator calls of `CGpuNode::freeMem()`, in order. -/
def freeMem : List MemOp :=
  [ MemOp.hipFree .d, MemOp.hipFree .h, MemOp.hipFree .hMax, MemOp.hipFree .fM,
    MemOp.hipFree .fN, MemOp.hipFree .cR1, MemOp.hipFree .cR2, MemOp.hipFree .cR4,
    MemOp.hipFree .tArr,
    MemOp.hipFree .cR6, MemOp.hipFree .cB1, MemOp.hipFree .cB2, MemOp.hipFree .cB3,
    MemOp.hipFree .cB4,
    MemOp.hipFree .g_MinMax ]

/-- The buffer a call frees, if it is a `hipFree`. -/
def MemOp.freed : MemOp → Option DevBuf
  | .hipFree b => some b
  | _ => none

/-- The byte count a `hipMalloc` call requests for buffer `b`. -/
def MemOp.requestFor (b : DevBuf) : MemOp → Option Nat
  | .hipMalloc c bytes => if c = b then some bytes else none
  | _ => none

/-- The byte counts requested with `hipMalloc` for buffer `b` in a sequence of
allocator calls. -/
def requestedBytes (ops : List MemOp) (b : DevBuf) : List Nat :=
  ops.filterMap (MemOp.requestFor b)

/-- The buffers that are allocated and not yet freed after a sequence of
allocator calls, started from the buffers `live`. -/
def liveAfter (live : List DevBuf) : List MemOp → List DevBuf
  | [] => live
  | .hipMallocPitch b _ _ :: rest => liveAfter (live ++ [b]) rest
  | .hipMalloc b _ :: rest => liveAfter (live ++ [b]) rest
  | .hipFree b :: rest => liveAfter (live.erase b) rest

/-- The nine 2D fields. -/
def fields2D : List DevBuf :=
  [.d, .h, .hMax, .fM, .fN, .cR1, .cR2, .cR4, .tArr]

/-- The five 1D fields. -/
def fields1D : List DevBuf :=
  [.cR6, .cB1, .cB2, .cB3, .cB4]

/-- The state the copy operations work on: the node, the host fields `h`,
`hMax`, `tArr` and their pitched staging arrays.  The contents of the device
buffers are written by the kernels, which are outside this file, so each
operation that reads a device buffer takes its current contents as an
argument. -/
structure NodeMem (α : Type) where
  node : CGpuNode
  h : Buffer α
  hMax : Buffer α
  tArr : Buffer α
  h_1D_aligned : Buffer α
  hMax_1D_aligned : Buffer α
  tArr_1D_aligned : Buffer α

/-- The call `hipMemcpy(dst, src, count * sizeof(float), kind)`: the first
`count` elements of `dst` are replaced by those of `src`. -/
def hipMemcpy {α : Type} (dst src : Buffer α) (count : Nat) : Buffer α :=
  fun i => if i < count then src i else dst i

/-- The element count `dp.nI * dp.pI` of the 2D transfers. -/
def Params.count2D (dp : Params) : Nat :=
  dp.nI.toNat * dp.pI

/-- The method `CGpuNode::copyFromGPU()`; `data_hMax` and `data_tArr` are the
device buffers `data.hMax` and `data.tArr`. -/
def copyFromGPU {α : Type} (s : NodeMem α) (data_hMax data_tArr : Buffer α) : NodeMem α :=
  let dp := s.node.params
  let hMaxStaged := hipMemcpy s.hMax_1D_aligned data_hMax dp.count2D
  let tArrStaged := hipMemcpy s.tArr_1D_aligned data_tArr dp.count2D
  { s with
    hMax_1D_aligned := hMaxStaged
    tArr_1D_aligned := tArrStaged
    hMax := AlignData hMaxStaged s.hMax dp.nI.toNat dp.pI dp.nJ.toNat
    tArr := AlignData tArrStaged s.tArr dp.nI.toNat dp.pI dp.nJ.toNat }

/-- The method `CGpuNode::copyIntermediate()`; `data_h` is the device buffer
`data.h`.  The request is ignored when `copied` is set. -/
def copyIntermediate {α : Type} (s : NodeMem α) (data_h : Buffer α) : NodeMem α :=
  if s.node.copied then s
  else
    let dp := s.node.params
    let hStaged := hipMemcpy s.h_1D_aligned data_h dp.count2D
    { s with
      h_1D_aligned := hStaged
      h := AlignData hStaged s.h dp.nI.toNat dp.pI dp.nJ.toNat
      node := { s.node with copied := true } }

/-- The device offset `dp.lpad + data.idx(i, j)` that `copyPOIs()` reads for
the linear host index `p`, with `i = p / dp.nJ + 1` and `j = p % dp.nJ + 1`
(C++ integer division).  The index function `idx` of `KernelData` is declared
in `ewGpuNode.cuh` and is a parameter here. -/
def poiDeviceOffset (idx : Int → Int → Int) (dp : Params) (p : Nat) : Nat :=
  let i := Int.tdiv p dp.nJ + 1
  let j := Int.tmod p dp.nJ + 1
  ((dp.lpad : Int) + idx i j).toNat

/-- The loop of `CGpuNode::copyPOIs()` over the points still to do: for each
`n`, `hipMemcpy(h + idxPOI[n], data.h + dp.lpad + id, sizeof(float))`. -/
def copyPOIsLoop {α : Type} (idx : Int → Int → Int) (dp : Params) (data_h : Buffer α) :
    List Nat → Buffer α → Buffer α
  | [], h => h
  | p :: rest, h =>
    copyPOIsLoop idx dp data_h rest (Function.update h p (data_h (poiDeviceOffset idx dp p)))

/-- The method `CGpuNode::copyPOIs()`; `idxPOI` is the array of the `NPOIs`
linear indices and `data_h` the device buffer `data.h`.  It returns at once
when `copied` is set, and does not write `copied`. -/
def copyPOIs {α : Type} (idx : Int → Int → Int) (idxPOI : List Nat) (s : NodeMem α)
    (data_h : Buffer α) : NodeMem α :=
  if s.node.copied then s
  else { s with h := copyPOIsLoop idx s.node.params data_h idxPOI s.h }

/-- One call on a node, with the inputs it takes from outside: the time and
the signal read back for `run`, the device contents for the copies. -/
inductive Op (α : Type) where
  | run (parTime : Int) (MinMax : Int4)
  | copyIntermediate (data_h : Buffer α)
  | copyFromGPU (data_hMax data_tArr : Buffer α)
  | copyPOIs (data_h : Buffer α)

/-- Whether the call is `copyIntermediate()`. -/
def Op.isCopyIntermediate {α : Type} : Op α → Bool
  | .copyIntermediate _ => true
  | _ => false

/-- The effect of one call. -/
def applyOp {α : Type} (idx : Int → Int → Int) (idxPOI : List Nat) (s : NodeMem α) :
    Op α → NodeMem α
  | .run parTime MinMax => { s with node := run s.node parTime MinMax }
  | .copyIntermediate data_h => copyIntermediate s data_h
  | .copyFromGPU data_hMax data_tArr => copyFromGPU s data_hMax data_tArr
  | .copyPOIs data_h => copyPOIs idx idxPOI s data_h

/-- A sequence of calls, first to last. -/
def applyOps {α : Type} (idx : Int → Int → Int) (idxPOI : List Nat) (s : NodeMem α)
    (ops : List (Op α)) : NodeMem α :=
  ops.foldl (applyOp idx idxPOI) s

/-- The sequence contains a `run()` with no `copyIntermediate()` after it. -/
def PendingRun {α : Type} (ops : List (Op α)) : Prop :=
  ∃ pre post parTime MinMax,
    ops = pre ++ Op.run parTime MinMax :: post ∧ ∀ o ∈ post, o.isCopyIntermediate = false

/-- A memory state over natural-number elements whose host fields and
staging arrays all hold zeros.  Used for concrete evaluations. -/
def NodeMem.zeros (node : CGpuNode) : NodeMem Nat where
  node := node
  h := fun _ => 0
  hMax := fun _ => 0
  tArr := fun _ => 0
  h_1D_aligned := fun _ => 0
  hMax_1D_aligned := fun _ => 0
  tArr_1D_aligned := fun _ => 0

/-- A node of a 2 × 3 grid stored with width `pI = 4`, left stale by a
`run()`.  Used for concrete evaluations. -/
def staleNode : CGpuNode :=
  run { nodeWith 2 3 2 2 2 2 with params := ⟨0, 2, 3, 2, 2, 2, 2, 4, 0⟩ } 0 ⟨0, 0, 0, 0⟩

/-- The index function `(j - 1) + (i - 1) * pI` for `pI = 4`, an instance of
the parameter `idx`.  Used for concrete evaluations. -/
def idxPitch4 (i j : Int) : Int :=
  (j - 1) + (i - 1) * 4

/-! ## Launch geometry and the device operations of `run()` -/

/-- The number of low bits a 24-bit significand cannot hold, for a magnitude
below `2 ^ (24 + fuel)`. -/
def droppedBits : Nat → Nat → Nat
  | 0, _ => 0
  | fuel + 1, n => if n < 2 ^ 24 then 0 else droppedBits fuel (n / 2) + 1

/-- The value of `(float)n` for a magnitude `n` of a 32-bit `int`: `n` rounded
to 24 significant bits, ties to even (IEEE-754 binary32, the default rounding
mode).  Magnitudes up to `2 ^ 24` are kept exactly. -/
def floatOfNat (n : Nat) : Nat :=
  let s := droppedBits 8 n
  let q := n / 2 ^ s
  let r := n % 2 ^ s
  let q2 := if 2 ^ s < 2 * r ∨ (2 * r = 2 ^ s ∧ q % 2 = 1) then q + 1 else q
  q2 * 2 ^ s

/-- The value of `(float)z` for an `int` `z`; rounding is symmetric in the
sign. -/
def floatOfInt (z : Int) : Int :=
  if z < 0 then -(floatOfNat z.natAbs : Int) else (floatOfNat z.natAbs : Int)

/-- The expression `ceil((float)v / (float)t)` converted to `int`, for a thread
count `t` that is a power of two (32, 8 and 256 in `run()`): the conversion of
`v` rounds, the division by a power of two and `ceil` are exact. -/
def ceilDivFloat (v t : Int) : Int :=
  -((-(floatOfInt v)) / t)

/-- The CUDA/HIP type `dim3`; a launch with an `int` extent `n` uses
`dim3(n, 1, 1)`. -/
structure Dim3 where
  x : Int
  y : Int
  z : Int
  deriving DecidableEq, Repr

/-- The launch geometry `run()` computes: `blocks(xBlocks, yBlocks)`,
`threads(xThreads, yThreads)`, `nBlocks` and `nThreads`. -/
structure LaunchGeometry where
  blocks : Dim3
  threads : Dim3
  nBlocks : Int
  nThreads : Int
  deriving DecidableEq, Repr

/-- The geometry computed at the head of `CGpuNode::run()`. -/
def launchGeometry (dp : Params) : LaunchGeometry :=
  let nThreads : Int := 256
  let xThreads : Int := 32
  let yThreads : Int := Int.tdiv nThreads xThreads
  let NJ := dp.jMax - dp.jMin + 1
  let NI := dp.iMax - dp.iMin + 1
  let xBlocks := ceilDivFloat NJ xThreads
  let yBlocks := ceilDivFloat NI yThreads
  { blocks := ⟨xBlocks, yBlocks, 1⟩
    threads := ⟨xThreads, yThreads, 1⟩
    nBlocks := ceilDivFloat (max dp.nI dp.nJ) nThreads
    nThreads := nThreads }

/-- The five kernels of a step. -/
inductive Kernel where
  | runWaveUpdateKernel
  | runWaveBoundaryKernel
  | runFluxUpdateKernel
  | runFluxBoundaryKernel
  | runGridExtendKernel
  deriving DecidableEq, Repr

/-- A call that `run()` issues to the device runtime. -/
inductive DeviceOp where
  | eventRecordStart (i : Nat)
  | eventRecordEnd (i : Nat)
  | launch (k : Kernel) (grid block : Dim3)
  | memsetMinMax
  | deviceSynchronize
  | memcpyMinMaxToHost
  | eventElapsedTime (j : Nat)
  deriving DecidableEq, Repr

/-- The kernel a call launches, if it is a launch. -/
def DeviceOp.kernel : DeviceOp → Option Kernel
  | .launch k _ _ => some k
  | _ => none

/-- Whether the call belongs to the event timers (`hipEventRecord`,
`hipEventElapsedTime`). -/
def DeviceOp.isEvent : DeviceOp → Bool
  | .eventRecordStart _ => true
  | .eventRecordEnd _ => true
  | .eventElapsedTime _ => true
  | _ => false

/-- The device runtime calls of one `CGpuNode::run()`, in order; `profiling`
says whether `ENABLE_KERNEL_PROFILING` is defined.  (The host clock reads of
`ENABLE_GPU_TIMINGS` are not device calls.) -/
def runDeviceOps (profiling : Bool) (node : CGpuNode) : List DeviceOp :=
  let g := launchGeometry node.params
  let nBlocks : Dim3 := ⟨g.nBlocks, 1, 1⟩
  let nThreads : Dim3 := ⟨g.nThreads, 1, 1⟩
  let compute :=
    if profiling then
      [ DeviceOp.eventRecordStart 0,
        DeviceOp.launch .runWaveUpdateKernel g.blocks g.threads,
        DeviceOp.eventRecordEnd 0,
        DeviceOp.eventRecordStart 1,
        DeviceOp.launch .runWaveBoundaryKernel nBlocks nThreads,
        DeviceOp.eventRecordEnd 1,
        DeviceOp.eventRecordStart 2,
        DeviceOp.launch .runFluxUpdateKernel g.blocks g.threads,
        DeviceOp.eventRecordEnd 2,
        DeviceOp.eventRecordStart 3,
        DeviceOp.launch .runFluxBoundaryKernel nBlocks nThreads,
        DeviceOp.eventRecordEnd 3,
        DeviceOp.eventRecordStart 4,
        DeviceOp.memsetMinMax,
        DeviceOp.launch .runGridExtendKernel nBlocks nThreads,
        DeviceOp.eventRecordEnd 4 ]
    else
      [ DeviceOp.launch .runWaveUpdateKernel g.blocks g.threads,
        DeviceOp.launch .runWaveBoundaryKernel nBlocks nThreads,
        DeviceOp.launch .runFluxUpdateKernel g.blocks g.threads,
        DeviceOp.launch .runFluxBoundaryKernel nBlocks nThreads,
        DeviceOp.memsetMinMax,
        DeviceOp.launch .runGridExtendKernel nBlocks nThreads,
        DeviceOp.deviceSynchronize ]
  let elapsed :=
    if profiling then (List.range 5).map DeviceOp.eventElapsedTime else []
  compute ++ [DeviceOp.memcpyMinMaxToHost] ++ elapsed

/-- One `CGpuNode::run()` in a build configuration: the node after the call
and the device runtime calls issued.  The bookkeeping after the read-back is
outside the `#ifdef`, so it is `run` in both configurations. -/
def runConfigured (profiling : Bool) (node : CGpuNode) (parTime : Int) (MinMax : Int4) :
    CGpuNode × List DeviceOp :=
  (run node parTime MinMax, runDeviceOps profiling node)

/-- A freshly constructed node whose other fields are zero.  Used for concrete
evaluations. -/
def freshNode : CGpuNode :=
  (nodeWith 0 0 0 0 0 0).construct

/-- The direction of a `hipMemcpy`. -/
inductive CopyKind where
  | hipMemcpyHostToDevice
  | hipMemcpyDeviceToHost
  deriving DecidableEq, Repr

/-- A transfer `hipMemcpy(.., .., bytes, kind)` between a host array and the
device buffer `buf`. -/
structure Transfer where
  buf : DevBuf
  bytes : Nat
  kind : CopyKind
  deriving DecidableEq, Repr

/-- The byte count `dp.nI * dp.pI * sizeof(float)` of a 2D transfer. -/
def Params.bytes2D (dp : Params) : Nat :=
  dp.count2D * sizeofFloat

/-- The transfers of `CGpuNode::copyToGPU()`, in order: the nine 2D fields
from their staging arrays, then the five 1D fields. -/
def copyToGPUTransfers (dp : Params) : List Transfer :=
  [ ⟨.d, dp.bytes2D, .hipMemcpyHostToDevice⟩,
    ⟨.h, dp.bytes2D, .hipMemcpyHostToDevice⟩,
    ⟨.hMax, dp.bytes2D, .hipMemcpyHostToDevice⟩,
    ⟨.fM, dp.bytes2D, .hipMemcpyHostToDevice⟩,
    ⟨.fN, dp.bytes2D, .hipMemcpyHostToDevice⟩,
    ⟨.cR1, dp.bytes2D, .hipMemcpyHostToDevice⟩,
    ⟨.cR2, dp.bytes2D, .hipMemcpyHostToDevice⟩,
    ⟨.cR4, dp.bytes2D, .hipMemcpyHostToDevice⟩,
    ⟨.tArr, dp.bytes2D, .hipMemcpyHostToDevice⟩,
    ⟨.cR6, dp.nJ.toNat * sizeofFloat, .hipMemcpyHostToDevice⟩,
    ⟨.cB1, dp.nI.toNat * sizeofFloat, .hipMemcpyHostToDevice⟩,
    ⟨.cB2, dp.nJ.toNat * sizeofFloat, .hipMemcpyHostToDevice⟩,
    ⟨.cB3, dp.nI.toNat * sizeofFloat, .hipMemcpyHostToDevice⟩,
    ⟨.cB4, dp.nJ.toNat * sizeofFloat, .hipMemcpyHostToDevice⟩ ]

/-- The transfers of `CGpuNode::copyFromGPU()`. -/
def copyFromGPUTransfers (dp : Params) : List Transfer :=
  [ ⟨.hMax, dp.bytes2D, .hipMemcpyDeviceToHost⟩,
    ⟨.tArr, dp.bytes2D, .hipMemcpyDeviceToHost⟩ ]

/-- The transfer of `CGpuNode::copyIntermediate()` when the mirror is stale. -/
def copyIntermediateTransfers (dp : Params) : List Transfer :=
  [ ⟨.h, dp.bytes2D, .hipMemcpyDeviceToHost⟩ ]

end EasyWave

/-! # The network manager of dl-mnist (`dl-mnist/HIP/dl_network_mgr.miopen.cpp`) -/

namespace DlInfra

/-- A call that `DlNetworkMgr::executeInferenceRun` makes on the convolution
layer `dlNetwork->convLayers_[i]`. -/
inductive LayerCall where
  | doIOTensorAndWSAllocs (i : Nat)
  | findBestAlgo (i : Nat)
  | doConv (i : Nat)
  | doTensorAndWSDeallocs (i : Nat)
  deriving DecidableEq, Repr

/-- The enumerators that `executeInferenceRun` compares with.  The enums
`WorkloadParams::TensorMemPolicy` and `WorkloadParams::ConvAlgo` are declared
in `workload_params.h`; their types `P` and `A` and these three values are
parameters. -/
structure Enumerators (P A : Type) where
  ALL_MEM_ALLOC_AT_START : P
  MEM_ALLOC_DEALLOC_EVERY_CONV : P
  MIOPEN_FIND_BEST_ALGO : A

/-- What `executeInferenceRun` reads from `workloadParams_`: the results of
`getTensorMemPolicy()` and `getConvAlgo()`. -/
structure WorkloadParams (P A : Type) where
  tensorMemPolicy : P
  convAlgo : A

/-- The calls `doIOTensorAndWSAllocs(); if (getConvAlgo() ==
MIOPEN_FIND_BEST_ALGO) findBestAlgo();` on layer `i`. -/
def allocAndFind {P A : Type} [DecidableEq A] (E : Enumerators P A) (wp : WorkloadParams P A)
    (i : Nat) : List LayerCall :=
  if wp.convAlgo = E.MIOPEN_FIND_BEST_ALGO then
    [LayerCall.doIOTensorAndWSAllocs i, LayerCall.findBestAlgo i]
  else [LayerCall.doIOTensorAndWSAllocs i]

/-- The method `DlNetworkMgr::executeInferenceRun`: the layer calls it makes,
in order, and its outcome, which is the `std::runtime_error` of the last
branch or a normal return.  `noOfConvLayers_` is the layer count of the
network; the loops `for (int i = 0; i < noOfConvLayers_; i++)` run over
`List.range`.  The layer methods are defined outside this file and are taken
to return normally. -/
def executeInferenceRun {P A : Type} [DecidableEq P] [DecidableEq A] (E : Enumerators P A)
    (wp : WorkloadParams P A) (noOfConvLayers_ : Int) : List LayerCall × Except String Unit :=
  let layers := List.range noOfConvLayers_.toNat
  if wp.tensorMemPolicy = E.ALL_MEM_ALLOC_AT_START then
    ((layers.map (allocAndFind E wp)).flatten
        ++ layers.map LayerCall.doConv
        ++ layers.map LayerCall.doTensorAndWSDeallocs,
      Except.ok ())
  else if wp.tensorMemPolicy = E.MEM_ALLOC_DEALLOC_EVERY_CONV then
    ((layers.map (fun i =>
        allocAndFind E wp i ++ [LayerCall.doConv i, LayerCall.doTensorAndWSDeallocs i])).flatten,
      Except.ok ())
  else
    ([], Except.error
      ("TensorMemPolicy is not ALL_MEM_ALLOC_AT_START or MEM_ALLOC_DEALLOC_EVERY_CONV"))

/-- The enumerators numbered 0, 1 and 0.  Used for concrete evaluations. -/
def numbered : Enumerators Nat Nat :=
  ⟨0, 1, 0⟩

end DlInfra

namespace EasyWave

/-! ## Transcoder lemmas -/

theorem moveRange_apply {α : Type} (src : Buffer α) (first : Nat) (out : Buffer α)
    (dst n i : Nat) :
    moveRange src first out dst n i =
      if dst ≤ i ∧ i < dst + n then src (first + (i - dst)) else out i := by
  induction n with
  | zero =>
    have h0 : ¬ (dst ≤ i ∧ i < dst + 0) := by omega
    simp only [moveRange, h0, if_false]
  | succ n ih =>
    simp only [moveRange, Function.update_apply, ih]
    by_cases h : i = dst + n
    · subst h
      simp
    · simp only [h, if_false]
      by_cases h2 : dst ≤ i ∧ i < dst + n
      · have h3 : dst ≤ i ∧ i < dst + (n + 1) := ⟨h2.1, by omega⟩
        simp [h2, h3]
      · have h3 : ¬ (dst ≤ i ∧ i < dst + (n + 1)) := by
          intro h4
          exact h2 ⟨h4.1, by omega⟩
        simp [h2, h3]

theorem AlignData_succ {α : Type} (inp out : Buffer α) (rows f t i : Nat) :
    AlignData inp out (rows + 1) f t i =
      if rows * t ≤ i ∧ i < rows * t + f then inp (rows * f + (i - rows * t))
      else AlignData inp out rows f t i := by
  simp only [AlignData, alignRows, moveRange_apply]

/-- An element below both row lengths lands at the same column of the same
row: this covers both directions of the transcoder. -/
theorem AlignData_cell {α : Type} (inp out : Buffer α) (rows f t r c : Nat)
    (hr : r < rows) (hf : c < f) (ht : c < t) :
    AlignData inp out rows f t (r * t + c) = inp (r * f + c) := by
  induction rows with
  | zero => omega
  | succ rows ih =>
    rw [AlignData_succ]
    by_cases h : r = rows
    · subst h
      have h1 : r * t ≤ r * t + c ∧ r * t + c < r * t + f := ⟨by omega, by omega⟩
      simp [h1]
    · have hlt : r < rows := by omega
      have h2 : (r + 1) * t ≤ rows * t := Nat.mul_le_mul_right t hlt
      have h3 : ¬ (rows * t ≤ r * t + c ∧ r * t + c < rows * t + f) := by
        intro h4
        have := h4.1
        rw [Nat.add_mul] at h2
        omega
      simp only [h3, if_false]
      exact ih hlt

/-- Offsets outside every written row segment keep their content. -/
theorem AlignData_frame {α : Type} (inp out : Buffer α) (rows f t i : Nat)
    (h : ∀ r, r < rows → ¬ (r * t ≤ i ∧ i < r * t + f)) :
    AlignData inp out rows f t i = out i := by
  induction rows with
  | zero => simp [AlignData, alignRows]
  | succ rows ih =>
    rw [AlignData_succ]
    have h1 := h rows (by omega)
    simp only [h1, if_false]
    exact ih (fun r hr => h r (by omega))

theorem mem_moveRangeWrites (dst n i : Nat) :
    i ∈ moveRangeWrites dst n ↔ dst ≤ i ∧ i < dst + n := by
  simp only [moveRangeWrites, List.mem_map, List.mem_range]
  constructor
  · rintro ⟨k, hk, rfl⟩
    omega
  · intro h
    exact ⟨i - dst, by omega, by omega⟩

theorem mem_AlignDataWrites (rows f t i : Nat) :
    i ∈ AlignDataWrites rows f t ↔ ∃ r, r < rows ∧ r * t ≤ i ∧ i < r * t + f := by
  simp only [AlignDataWrites, List.mem_flatten, List.mem_map, List.mem_range]
  constructor
  · rintro ⟨l, ⟨r, hr, rfl⟩, hi⟩
    exact ⟨r, hr, (mem_moveRangeWrites _ _ _).1 hi⟩
  · rintro ⟨r, hr, hi⟩
    exact ⟨_, ⟨r, hr, rfl⟩, (mem_moveRangeWrites _ _ _).2 hi⟩

/-- The write footprint is sound: an offset that is not in `AlignDataWrites`
keeps its content. -/
theorem AlignData_unwritten {α : Type} (inp out : Buffer α) (rows f t i : Nat)
    (h : i ∉ AlignDataWrites rows f t) :
    AlignData inp out rows f t i = out i := by
  apply AlignData_frame
  intro r hr hi
  exact h ((mem_AlignDataWrites rows f t i).2 ⟨r, hr, hi⟩)

/-- The write footprint is exact: an offset in `AlignDataWrites` holds an input
element after the call, whatever the output buffer held before. -/
theorem AlignData_written {α : Type} (inp out out2 : Buffer α) (rows f t i : Nat)
    (h : i ∈ AlignDataWrites rows f t) :
    AlignData inp out rows f t i = AlignData inp out2 rows f t i := by
  induction rows with
  | zero => simp [AlignDataWrites] at h
  | succ rows ih =>
    rw [AlignData_succ, AlignData_succ]
    by_cases h1 : rows * t ≤ i ∧ i < rows * t + f
    · simp [h1]
    · simp only [h1, if_false]
      apply ih
      obtain ⟨r, hr, hi⟩ := (mem_AlignDataWrites _ _ _ _).1 h
      have : r ≠ rows := by
        rintro rfl
        exact h1 hi
      exact (mem_AlignDataWrites _ _ _ _).2 ⟨r, by omega, hi⟩

/-! ## The transcoder claims -/

/-- Claim C2: to-device placement.  For `storageWidth ≥ cols`, after
`AlignData(A, D, rows, cols, storageWidth)` the pitched array holds
`D[r * storageWidth + c] = A[r * cols + c]` for every `r < rows`, `c < cols`. -/
theorem AlignData_toDevice_placement {α : Type} (A D : Buffer α)
    (rows cols storageWidth r c : Nat)
    (hsw : cols ≤ storageWidth) (hr : r < rows) (hc : c < cols) :
    AlignData A D rows cols storageWidth (r * storageWidth + c) = A (r * cols + c) :=
  AlignData_cell A D rows cols storageWidth r c hr hc (by omega)

/-- Claim C2 at a concrete input: row 1, column 2 of a 2 × 3 array, storage
width 4. -/
theorem AlignData_toDevice_placement_witness :
    3 ≤ 4 ∧ 1 < 2 ∧ 2 < 3 ∧
    AlignData (fun i => 10 + i) (fun _ => 0) 2 3 4 (1 * 4 + 2) = 10 + (1 * 3 + 2) :=
  ⟨by decide, by decide, by decide,
    AlignData_toDevice_placement (fun i => 10 + i) (fun _ => 0) 2 3 4 1 2
      (by decide) (by decide) (by decide)⟩

/-- Claim C3: to-device padding is untouched.  For `storageWidth ≥ cols`,
`AlignData(A, D, rows, cols, storageWidth)` leaves `D[r * storageWidth + c]`
at its previous value for every `r < rows` and every pad column
`cols ≤ c < storageWidth`. -/
theorem AlignData_toDevice_padding_untouched {α : Type} (A D : Buffer α)
    (rows cols storageWidth r c : Nat)
    (_hsw : cols ≤ storageWidth) (hr : r < rows) (hc1 : cols ≤ c) (hc2 : c < storageWidth) :
    AlignData A D rows cols storageWidth (r * storageWidth + c) = D (r * storageWidth + c) := by
  apply AlignData_frame
  intro q _ hq
  rcases Nat.lt_trichotomy q r with h | h | h
  · have h1 : (q + 1) * storageWidth ≤ r * storageWidth := Nat.mul_le_mul_right _ h
    rw [Nat.add_mul] at h1
    omega
  · subst h
    omega
  · have h1 : (r + 1) * storageWidth ≤ q * storageWidth := Nat.mul_le_mul_right _ h
    rw [Nat.add_mul] at h1
    omega

/-- Claim C3 at a concrete input: the pad element of row 1 of a 2 × 3 array
stored with width 4 keeps the value 77 it had. -/
theorem AlignData_toDevice_padding_untouched_witness :
    3 ≤ 4 ∧ 1 < 2 ∧ 3 ≤ 3 ∧ 3 < 4 ∧
    AlignData (fun i => 10 + i) (fun _ => 77) 2 3 4 (1 * 4 + 3) = 77 :=
  ⟨by decide, by decide, by decide, by decide,
    AlignData_toDevice_padding_untouched (fun i => 10 + i) (fun _ => 77) 2 3 4 1 3
      (by decide) (by decide) (by decide) (by decide)⟩

/-- The from-device call moves `storageWidth` elements per row, so for
`rows ≥ 1` and `storageWidth > cols` its last store goes to host offset
`(rows - 1) * cols + storageWidth - 1`, which is not below `rows * cols`. -/
theorem AlignDataWrites_fromDevice_overrun (rows cols storageWidth : Nat)
    (hrows : 1 ≤ rows) (hsw : cols < storageWidth) :
    (rows - 1) * cols + (storageWidth - 1) ∈ AlignDataWrites rows storageWidth cols ∧
    rows * cols ≤ (rows - 1) * cols + (storageWidth - 1) := by
  obtain ⟨q, rfl⟩ : ∃ q, rows = q + 1 := ⟨rows - 1, by omega⟩
  refine ⟨(mem_AlignDataWrites _ _ _ _).2 ⟨q, by omega, ?_, ?_⟩, ?_⟩
  · simp
  · simp only [Nat.add_sub_cancel]
    omega
  · simp only [Nat.add_sub_cancel, Nat.add_mul, Nat.one_mul]
    omega

/-- Claim C4, evaluated on the code: for a 2 × 3 host array read back from a
device array of storage width 4, the from-device call `AlignData(D, H, 2, 4, 3)`
stores to host offset 6, which is not below `rows * cols = 6`; what lands
there is the pad element `D[7]` of device row 1.  The claim that every host
index written is below `rows * cols` fails. -/
theorem AlignData_fromDevice_writes_past_host :
    AlignDataWrites 2 4 3 = [0, 1, 2, 3, 3, 4, 5, 6] ∧
    6 ∈ AlignDataWrites 2 4 3 ∧ ¬ (6 < 2 * 3) ∧
    AlignData (fun i => 10 + i) (fun _ => 0) 2 4 3 6 = 10 + 7 := by
  refine ⟨by decide, by decide, by decide, ?_⟩
  simp [AlignData, alignRows, moveRange, Function.update_apply]

theorem mem_moveRangeReads (first n i : Nat) :
    i ∈ moveRangeReads first n ↔ first ≤ i ∧ i < first + n := by
  simp only [moveRangeReads, List.mem_map, List.mem_range]
  constructor
  · rintro ⟨k, hk, rfl⟩
    omega
  · intro h
    exact ⟨i - first, by omega, by omega⟩

theorem mem_AlignDataReads (rows f i : Nat) :
    i ∈ AlignDataReads rows f ↔ ∃ r, r < rows ∧ r * f ≤ i ∧ i < r * f + f := by
  simp only [AlignDataReads, List.mem_flatten, List.mem_map, List.mem_range]
  constructor
  · rintro ⟨l, ⟨r, hr, rfl⟩, hi⟩
    exact ⟨r, hr, (mem_moveRangeReads _ _ _).1 hi⟩
  · rintro ⟨r, hr, hi⟩
    exact ⟨_, ⟨r, hr, rfl⟩, (mem_moveRangeReads _ _ _).2 hi⟩

/-- Every load of `AlignData` is inside an input array of `rows * f`
elements. -/
theorem AlignDataReads_in_bounds (rows f : Nat) :
    (AlignDataReads rows f).all (fun i => decide (i < rows * f)) = true := by
  rw [List.all_eq_true]
  intro i hi
  obtain ⟨r, hr, _, hlt⟩ := (mem_AlignDataReads _ _ _).1 hi
  have h1 : (r + 1) * f ≤ rows * f := Nat.mul_le_mul_right _ hr
  rw [Nat.add_mul] at h1
  simp only [decide_eq_true_eq]
  omega

/-- Every store of `AlignData` is inside an output array of `rows * t`
elements when the rows moved are no longer than the output rows. -/
theorem AlignDataWrites_in_bounds (rows f t : Nat) (hft : f ≤ t) :
    (AlignDataWrites rows f t).all (fun i => decide (i < rows * t)) = true := by
  rw [List.all_eq_true]
  intro i hi
  obtain ⟨r, hr, _, hlt⟩ := (mem_AlignDataWrites _ _ _ _).1 hi
  have h1 : (r + 1) * t ≤ rows * t := Nat.mul_le_mul_right _ hr
  rw [Nat.add_mul] at h1
  simp only [decide_eq_true_eq]
  omega

/-- The to-device call stays inside its arrays whenever
`storageWidth ≥ cols`. -/
theorem AlignDataChecked_toDevice {α : Type} (A D : Buffer α) (rows cols storageWidth : Nat)
    (hsw : cols ≤ storageWidth) :
    AlignDataChecked (rows * cols) (rows * storageWidth) A D rows cols storageWidth
      = some (AlignData A D rows cols storageWidth) := by
  simp only [AlignDataChecked, AlignDataReads_in_bounds,
    AlignDataWrites_in_bounds rows cols storageWidth hsw, and_self, if_true]

/-- The element values of the two calls when no extent is checked: for
`cols ≥ 1` and `storageWidth ≥ cols`, `AlignData(A, D, rows, cols,
storageWidth)` followed by `AlignData(D, B, rows, storageWidth, cols)` stores
`A[k]` at `B[k]` for every `k < rows * cols`.  This says nothing about the
stores beyond `rows * cols`, which `transcodeRoundTrip` accounts for. -/
theorem AlignData_values_unchecked {α : Type} (A D B : Buffer α) (rows cols storageWidth k : Nat)
    (hcols : 1 ≤ cols) (hsw : cols ≤ storageWidth) (hk : k < rows * cols) :
    AlignData (AlignData A D rows cols storageWidth) B rows storageWidth cols k = A k := by
  have hc : k % cols < cols := Nat.mod_lt k (by omega)
  have hr : k / cols < rows := by
    rw [Nat.div_lt_iff_lt_mul (by omega : 0 < cols)]
    exact hk
  have hk2 : k / cols * cols + k % cols = k := Nat.div_add_mod' k cols
  calc AlignData (AlignData A D rows cols storageWidth) B rows storageWidth cols k
      = AlignData (AlignData A D rows cols storageWidth) B rows storageWidth cols
          (k / cols * cols + k % cols) := by rw [hk2]
    _ = AlignData A D rows cols storageWidth (k / cols * storageWidth + k % cols) :=
        AlignData_cell _ B rows storageWidth cols (k / cols) (k % cols) hr (by omega) hc
    _ = A (k / cols * cols + k % cols) :=
        AlignData_cell A D rows cols storageWidth (k / cols) (k % cols) hr hc (by omega)
    _ = A k := by rw [hk2]

/-- Without padding (`storageWidth = cols`) the round trip has a result and it
returns every element: `B[k] = A[k]` for `k < rows * cols`. -/
theorem transcodeRoundTrip_no_padding {α : Type} (A D B : Buffer α) (rows cols k : Nat)
    (hk : k < rows * cols) :
    ∃ B2, transcodeRoundTrip A D B rows cols cols = some B2 ∧ B2 k = A k := by
  have hcols : 1 ≤ cols := by
    rcases Nat.eq_zero_or_pos cols with h | h
    · subst h
      simp at hk
    · exact h
  refine ⟨AlignData (AlignData A D rows cols cols) B rows cols cols, ?_,
    AlignData_values_unchecked A D B rows cols cols k hcols (le_refl _) hk⟩
  unfold transcodeRoundTrip
  rw [AlignDataChecked_toDevice A D rows cols cols (le_refl _)]
  exact AlignDataChecked_toDevice _ B rows cols cols (le_refl _)

/-- With padding (`storageWidth > cols`) and at least one row the from-device
call stores past the `rows * cols` host array, so the round trip has no
defined result. -/
theorem transcodeRoundTrip_padding {α : Type} (A D B : Buffer α) (rows cols storageWidth : Nat)
    (hrows : 1 ≤ rows) (hsw : cols < storageWidth) :
    transcodeRoundTrip A D B rows cols storageWidth = none := by
  obtain ⟨hmem, hge⟩ := AlignDataWrites_fromDevice_overrun rows cols storageWidth hrows hsw
  have hbad : ¬ ((AlignDataWrites rows storageWidth cols).all
      (fun i => decide (i < rows * cols)) = true) := by
    rw [List.all_eq_true]
    intro h
    have := h _ hmem
    simp only [decide_eq_true_eq] at this
    omega
  unfold transcodeRoundTrip
  rw [AlignDataChecked_toDevice A D rows cols storageWidth (le_of_lt hsw)]
  show AlignDataChecked (rows * storageWidth) (rows * cols)
    (AlignData A D rows cols storageWidth) B rows storageWidth cols = none
  unfold AlignDataChecked
  exact if_neg (fun h => hbad h.2)

/-- Claim C1, evaluated on the code: for a 2 × 3 host array and the storage
width 4, the to-device call stays inside its arrays, but the from-device call
`AlignData(D, B, 2, 4, 3)` stores to offset 6 of the 6-element host array `B`,
so the round trip has no defined result; with the storage width 3 (no
padding) it has one and returns element 5 unchanged. -/
theorem transcodeRoundTrip_overruns_host :
    (AlignDataChecked (2 * 3) (2 * 4) (fun i => 10 + i) (fun _ => 0) 2 3 4).isSome = true ∧
    (AlignDataWrites 2 4 3).all (fun i => decide (i < 2 * 3)) = false ∧
    (transcodeRoundTrip (fun i => 10 + i) (fun _ => 0) (fun _ => 0) 2 3 4).isNone = true ∧
    (transcodeRoundTrip (fun i => 10 + i) (fun _ => 0) (fun _ => 0) 2 3 3).map (fun b => b 5)
      = some (10 + 5) := by
  refine ⟨by decide, by decide, by decide, ?_⟩
  obtain ⟨B2, h1, h2⟩ := transcodeRoundTrip_no_padding (fun i => 10 + i) (fun _ => 0)
    (fun _ => 0) 2 3 5 (by decide)
  rw [h1]
  simp only [Option.map_some']
  rw [h2]

/-! ## Region lemmas -/

theorem run_nI (node : CGpuNode) (parTime : Int) (MinMax : Int4) :
    (run node parTime MinMax).params.nI = node.params.nI := by
  simp only [run, CGpuNode.assignIMin, CGpuNode.assignIMax, CGpuNode.assignJMin,
    CGpuNode.assignJMax]
  split_ifs <;> rfl

theorem run_nJ (node : CGpuNode) (parTime : Int) (MinMax : Int4) :
    (run node parTime MinMax).params.nJ = node.params.nJ := by
  simp only [run, CGpuNode.assignIMin, CGpuNode.assignIMax, CGpuNode.assignJMin,
    CGpuNode.assignJMax]
  split_ifs <;> rfl

theorem run_iMin (node : CGpuNode) (parTime : Int) (MinMax : Int4) :
    (run node parTime MinMax).params.iMin =
      if MinMax.x ≠ 0 then max (node.params.iMin - 1) 2 else node.params.iMin := by
  simp only [run, CGpuNode.assignIMin, CGpuNode.assignIMax, CGpuNode.assignJMin,
    CGpuNode.assignJMax]
  split_ifs <;> rfl

theorem run_iMax (node : CGpuNode) (parTime : Int) (MinMax : Int4) :
    (run node parTime MinMax).params.iMax =
      if MinMax.y ≠ 0 then min (node.params.iMax + 1) (node.params.nI - 1)
      else node.params.iMax := by
  simp only [run, CGpuNode.assignIMin, CGpuNode.assignIMax, CGpuNode.assignJMin,
    CGpuNode.assignJMax]
  split_ifs <;> rfl

theorem run_jMin (node : CGpuNode) (parTime : Int) (MinMax : Int4) :
    (run node parTime MinMax).params.jMin =
      if MinMax.z ≠ 0 then max (node.params.jMin - 32) 2 else node.params.jMin := by
  simp only [run, CGpuNode.assignIMin, CGpuNode.assignIMax, CGpuNode.assignJMin,
    CGpuNode.assignJMax]
  split_ifs <;> rfl

theorem run_jMax (node : CGpuNode) (parTime : Int) (MinMax : Int4) :
    (run node parTime MinMax).params.jMax =
      if MinMax.w ≠ 0 then min (node.params.jMax + 1) (node.params.nJ - 1)
      else node.params.jMax := by
  simp only [run, CGpuNode.assignIMin, CGpuNode.assignIMax, CGpuNode.assignJMin,
    CGpuNode.assignJMax]
  split_ifs <;> rfl

/-! ## The region claims -/

/-- Claim C5 as stated fails: on a 10 × 10 grid with `iMax = 8` and only
`growHigh_i` set, `run()` yields `iMax = min(9, nI - 1) = 9`, while the rule of
spec §4.4 step 3 yields `min(9, nRows - 2) = 8`. -/
theorem run_region_ne_specRegionUpdate :
    (run (nodeWith 10 10 2 8 2 8) 0 ⟨0, 1, 0, 0⟩).region = ⟨2, 9, 2, 8⟩ ∧
    specRegionUpdate 10 10 (nodeWith 10 10 2 8 2 8).region false true false false
      = ⟨2, 8, 2, 8⟩ ∧
    (run (nodeWith 10 10 2 8 2 8) 0 ⟨0, 1, 0, 0⟩).region ≠
      specRegionUpdate 10 10 (nodeWith 10 10 2 8 2 8).region false true false false := by
  decide

/-- Claim C5, amended: the region update of `run()` is the rule of spec §4.4
step 3 with `growthStepJ = 32` and with the high bounds clamped to `nRows - 1`
and `nCols - 1`: `iMin' = max(iMin - 1, 2)` if `growLow_i` else `iMin`;
`iMax' = min(iMax + 1, nRows - 1)` if `growHigh_i` else `iMax`;
`jMin' = max(jMin - 32, 2)` if `growLow_j` else `jMin`;
`jMax' = min(jMax + 1, nCols - 1)` if `growHigh_j` else `jMax`.  A component
of the signal counts as set when it is non-zero. -/
theorem run_region_rule (node : CGpuNode) (parTime : Int) (MinMax : Int4) :
    (run node parTime MinMax).region =
      { iMin := if MinMax.x ≠ 0 then max (node.region.iMin - 1) 2 else node.region.iMin
        iMax := if MinMax.y ≠ 0 then min (node.region.iMax + 1) (node.params.nI - 1)
                else node.region.iMax
        jMin := if MinMax.z ≠ 0 then max (node.region.jMin - growthStepJ) 2
                else node.region.jMin
        jMax := if MinMax.w ≠ 0 then min (node.region.jMax + 1) (node.params.nJ - 1)
                else node.region.jMax } := by
  simp only [CGpuNode.region, growthStepJ, run_iMin, run_iMax, run_jMin, run_jMax]

/-- Claim C6 as stated fails: on a 10 × 10 grid the region `(2, 8, 2, 8)` lies
inside `[2, nRows-2] × [2, nCols-2]`, and one step with `growHigh_i` set moves
`iMax` to `9 > nRows - 2`. -/
theorem runSteps_exits_inner_box :
    (2 ≤ (nodeWith 10 10 2 8 2 8).params.iMin ∧ (nodeWith 10 10 2 8 2 8).params.iMax ≤ 10 - 2 ∧
      2 ≤ (nodeWith 10 10 2 8 2 8).params.jMin ∧ (nodeWith 10 10 2 8 2 8).params.jMax ≤ 10 - 2) ∧
    (runSteps (nodeWith 10 10 2 8 2 8) [(0, ⟨0, 1, 0, 0⟩)]).params.iMax = 9 ∧
    ¬ ((runSteps (nodeWith 10 10 2 8 2 8) [(0, ⟨0, 1, 0, 0⟩)]).params.iMax ≤ 10 - 2) := by
  decide

/-- Claim C6, amended: for every grid, every initial region with `2 ≤ iMin`,
`iMax ≤ nRows - 1`, `2 ≤ jMin`, `jMax ≤ nCols - 1` (in particular every region
inside `[2, nRows-2] × [2, nCols-2]`) and every finite sequence of signals, the
region after the steps satisfies `2 ≤ iMin`, `iMax ≤ nRows - 1`, `2 ≤ jMin` and
`jMax ≤ nCols - 1`. -/
theorem runSteps_stays_in_grid (node : CGpuNode) (steps : List (Int × Int4))
    (h1 : 2 ≤ node.params.iMin) (h2 : node.params.iMax ≤ node.params.nI - 1)
    (h3 : 2 ≤ node.params.jMin) (h4 : node.params.jMax ≤ node.params.nJ - 1) :
    2 ≤ (runSteps node steps).params.iMin ∧
    (runSteps node steps).params.iMax ≤ node.params.nI - 1 ∧
    2 ≤ (runSteps node steps).params.jMin ∧
    (runSteps node steps).params.jMax ≤ node.params.nJ - 1 := by
  induction steps generalizing node with
  | nil => exact ⟨h1, h2, h3, h4⟩
  | cons st rest ih =>
    have hI := run_nI node st.1 st.2
    have hJ := run_nJ node st.1 st.2
    have e1 := run_iMin node st.1 st.2
    have e2 := run_iMax node st.1 st.2
    have e3 := run_jMin node st.1 st.2
    have e4 := run_jMax node st.1 st.2
    have := ih (run node st.1 st.2)
      (by rw [e1]; split_ifs <;> omega) (by rw [e2, hI]; split_ifs <;> omega)
      (by rw [e3]; split_ifs <;> omega) (by rw [e4, hJ]; split_ifs <;> omega)
    rw [hI, hJ] at this
    exact this

/-- Claim C6 (amended) at a concrete input: three steps from `(3, 97, 40, 98)`
on a 100 × 100 grid. -/
theorem runSteps_stays_in_grid_witness :
    (2 ≤ (nodeWith 100 100 3 97 40 98).params.iMin ∧
      (nodeWith 100 100 3 97 40 98).params.iMax ≤ (nodeWith 100 100 3 97 40 98).params.nI - 1 ∧
      2 ≤ (nodeWith 100 100 3 97 40 98).params.jMin ∧
      (nodeWith 100 100 3 97 40 98).params.jMax ≤ (nodeWith 100 100 3 97 40 98).params.nJ - 1) ∧
    (2 ≤ (runSteps (nodeWith 100 100 3 97 40 98)
        [(0, ⟨1, 1, 1, 1⟩), (1, ⟨1, 1, 1, 1⟩), (2, ⟨5, -1, 1, 1⟩)]).params.iMin ∧
      (runSteps (nodeWith 100 100 3 97 40 98)
        [(0, ⟨1, 1, 1, 1⟩), (1, ⟨1, 1, 1, 1⟩), (2, ⟨5, -1, 1, 1⟩)]).params.iMax
        ≤ (nodeWith 100 100 3 97 40 98).params.nI - 1 ∧
      2 ≤ (runSteps (nodeWith 100 100 3 97 40 98)
        [(0, ⟨1, 1, 1, 1⟩), (1, ⟨1, 1, 1, 1⟩), (2, ⟨5, -1, 1, 1⟩)]).params.jMin ∧
      (runSteps (nodeWith 100 100 3 97 40 98)
        [(0, ⟨1, 1, 1, 1⟩), (1, ⟨1, 1, 1, 1⟩), (2, ⟨5, -1, 1, 1⟩)]).params.jMax
        ≤ (nodeWith 100 100 3 97 40 98).params.nJ - 1) :=
  ⟨by decide,
    runSteps_stays_in_grid (nodeWith 100 100 3 97 40 98)
      [(0, ⟨1, 1, 1, 1⟩), (1, ⟨1, 1, 1, 1⟩), (2, ⟨5, -1, 1, 1⟩)]
      (by decide) (by decide) (by decide) (by decide)⟩

/-- Claim C7: the active-region invariant `2 ≤ iMin ≤ iMax ≤ nRows - 1` and
`2 ≤ jMin ≤ jMax ≤ nCols - 1` is preserved by the region update of `run()` for
every value of the expansion signal; and a region with `iMin = 2` and
`growLow_i` set keeps `iMin = 2`. -/
theorem run_preserves_RegionInv (node : CGpuNode) (parTime : Int) (MinMax : Int4) :
    (RegionInv node.params.nI node.params.nJ node.region →
      RegionInv node.params.nI node.params.nJ (run node parTime MinMax).region) ∧
    (node.params.iMin = 2 → MinMax.x ≠ 0 → (run node parTime MinMax).params.iMin = 2) := by
  constructor
  · simp only [RegionInv, CGpuNode.region, run_iMin, run_iMax, run_jMin, run_jMax]
    rintro ⟨h1, h2, h3, h4, h5, h6⟩
    split_ifs <;> omega
  · intro h hx
    rw [run_iMin, if_pos hx, h]
    decide

/-- Claim C7 at a concrete input: the region `(2, 50, 2, 99)` of a 100 × 100
grid, which touches three bounds, with every component of the signal set. -/
theorem run_preserves_RegionInv_witness :
    RegionInv 100 100 (nodeWith 100 100 2 50 2 99).region ∧
    RegionInv 100 100 (run (nodeWith 100 100 2 50 2 99) 0 ⟨1, 1, 1, 1⟩).region ∧
    (nodeWith 100 100 2 50 2 99).params.iMin = 2 ∧ (1 : Int) ≠ 0 ∧
    (run (nodeWith 100 100 2 50 2 99) 0 ⟨1, 1, 1, 1⟩).params.iMin = 2 :=
  ⟨by decide,
    (run_preserves_RegionInv (nodeWith 100 100 2 50 2 99) 0 ⟨1, 1, 1, 1⟩).1 (by decide),
    rfl, by decide,
    (run_preserves_RegionInv (nodeWith 100 100 2 50 2 99) 0 ⟨1, 1, 1, 1⟩).2 rfl (by decide)⟩

/-- Claim C8: the active region never shrinks across a `run()`.  For every
region satisfying the invariant of spec §3 and every value of the expansion
signal, `iMin' ≤ iMin`, `iMax' ≥ iMax`, `jMin' ≤ jMin` and `jMax' ≥ jMax`. -/
theorem run_region_never_shrinks (node : CGpuNode) (parTime : Int) (MinMax : Int4)
    (hinv : RegionInv node.params.nI node.params.nJ node.region) :
    (run node parTime MinMax).params.iMin ≤ node.params.iMin ∧
    node.params.iMax ≤ (run node parTime MinMax).params.iMax ∧
    (run node parTime MinMax).params.jMin ≤ node.params.jMin ∧
    node.params.jMax ≤ (run node parTime MinMax).params.jMax := by
  simp only [RegionInv, CGpuNode.region] at hinv
  obtain ⟨h1, h2, h3, h4, h5, h6⟩ := hinv
  simp only [run_iMin, run_iMax, run_jMin, run_jMax]
  split_ifs <;> omega

/-- Claim C8 at a concrete input: the region `(48, 52, 48, 99)` of a 100 × 100
grid with every component of the signal set. -/
theorem run_region_never_shrinks_witness :
    RegionInv 100 100 (nodeWith 100 100 48 52 48 99).region ∧
    (run (nodeWith 100 100 48 52 48 99) 0 ⟨1, 1, 1, 1⟩).params.iMin ≤ 48 ∧
    48 + 4 ≤ (run (nodeWith 100 100 48 52 48 99) 0 ⟨1, 1, 1, 1⟩).params.iMax ∧
    (run (nodeWith 100 100 48 52 48 99) 0 ⟨1, 1, 1, 1⟩).params.jMin ≤ 48 ∧
    99 ≤ (run (nodeWith 100 100 48 52 48 99) 0 ⟨1, 1, 1, 1⟩).params.jMax :=
  ⟨by decide,
    run_region_never_shrinks (nodeWith 100 100 48 52 48 99) 0 ⟨1, 1, 1, 1⟩ (by decide)⟩

/-- Claim C9: when the expansion signal read back by `run()` is `(0, 0, 0, 0)`,
the device region `(iMin, iMax, jMin, jMax)` and the host copies
`(Imin, Imax, Jmin, Jmax)` after `run()` equal their values before `run()`,
for every region and every grid. -/
theorem run_zero_signal_keeps_region (node : CGpuNode) (parTime : Int) :
    (run node parTime ⟨0, 0, 0, 0⟩).region = node.region ∧
    (run node parTime ⟨0, 0, 0, 0⟩).hostRegion = node.hostRegion := by
  simp [run, CGpuNode.region, CGpuNode.hostRegion]

/-- Claim C10: for a region not touching the outer bounds (`2 < iMin`,
`iMax < nRows - 2`, `2 < jMin`, `jMax < nCols - 2`), a `run()` whose expansion
signal has all four components set yields `iMin' = iMin - 1`,
`iMax' = iMax + 1`, `jMin' = max(jMin - 32, 2)` and `jMax' = jMax + 1`. -/
theorem run_all_set_interior (node : CGpuNode) (parTime : Int) (MinMax : Int4)
    (h1 : 2 < node.params.iMin) (h2 : node.params.iMax < node.params.nI - 2)
    (_h3 : 2 < node.params.jMin) (h4 : node.params.jMax < node.params.nJ - 2)
    (hx : MinMax.x ≠ 0) (hy : MinMax.y ≠ 0) (hz : MinMax.z ≠ 0) (hw : MinMax.w ≠ 0) :
    (run node parTime MinMax).params.iMin = node.params.iMin - 1 ∧
    (run node parTime MinMax).params.iMax = node.params.iMax + 1 ∧
    (run node parTime MinMax).params.jMin = max (node.params.jMin - 32) 2 ∧
    (run node parTime MinMax).params.jMax = node.params.jMax + 1 := by
  rw [run_iMin, run_iMax, run_jMin, run_jMax, if_pos hx, if_pos hy, if_pos hz, if_pos hw]
  refine ⟨by omega, by omega, rfl, by omega⟩

/-- Claim C10 at a concrete input: the region `(48, 52, 20, 52)` of a
100 × 100 grid; `jMin` is cut at 2 because `20 - 32 < 2`. -/
theorem run_all_set_interior_witness :
    (2 < (nodeWith 100 100 48 52 20 52).params.iMin ∧
      (nodeWith 100 100 48 52 20 52).params.iMax < (nodeWith 100 100 48 52 20 52).params.nI - 2 ∧
      2 < (nodeWith 100 100 48 52 20 52).params.jMin ∧
      (nodeWith 100 100 48 52 20 52).params.jMax < (nodeWith 100 100 48 52 20 52).params.nJ - 2) ∧
    (run (nodeWith 100 100 48 52 20 52) 7 ⟨1, 1, 1, 1⟩).params.iMin = 48 - 1 ∧
    (run (nodeWith 100 100 48 52 20 52) 7 ⟨1, 1, 1, 1⟩).params.iMax = 52 + 1 ∧
    (run (nodeWith 100 100 48 52 20 52) 7 ⟨1, 1, 1, 1⟩).params.jMin = max (20 - 32) 2 ∧
    (run (nodeWith 100 100 48 52 20 52) 7 ⟨1, 1, 1, 1⟩).params.jMax = 52 + 1 :=
  ⟨by decide,
    run_all_set_interior (nodeWith 100 100 48 52 20 52) 7 ⟨1, 1, 1, 1⟩
      (by decide) (by decide) (by decide) (by decide)
      (by decide) (by decide) (by decide) (by decide)⟩

/-! ## The end-to-end scenario -/

/-- Claim C11 as stated fails: on a 100 × 100 grid with the configured region
`(Imin, Imax, Jmin, Jmax) = (48, 52, 48, 52)`, `copyToGPU()` first aligns the
left bound to `Jmin = 48 - (48 - 2) % 32 = 34`, so the region on the device is
`(48, 52, 34, 52)`, and one `run()` with all four components of the signal set
leaves `(47, 53, 2, 53)`, not `(47, 53, 16, 53)`. -/
theorem copyToGPU_run_scenario_not_16 :
    (copyToGPU (nodeWith 100 100 48 52 48 52)).region = ⟨48, 52, 34, 52⟩ ∧
    (run (copyToGPU (nodeWith 100 100 48 52 48 52)) 0 ⟨1, 1, 1, 1⟩).region ≠ ⟨47, 53, 16, 53⟩ := by
  decide

/-- Claim C11, amended: with `nRows = nCols = 100` and the initial region
`(Imin, Imax, Jmin, Jmax) = (48, 52, 48, 52)` loaded onto the device by
`copyToGPU()`, a single `run()` whose expansion signal is
`(true, true, true, true)` leaves the region
`(iMin, iMax, jMin, jMax) = (47, 53, 2, 53)`, in the device block and in the
host copies alike. -/
theorem copyToGPU_run_scenario (parTime : Int) :
    (run (copyToGPU (nodeWith 100 100 48 52 48 52)) parTime ⟨1, 1, 1, 1⟩).region
      = ⟨47, 53, 2, 53⟩ ∧
    (run (copyToGPU (nodeWith 100 100 48 52 48 52)) parTime ⟨1, 1, 1, 1⟩).hostRegion
      = ⟨47, 53, 2, 53⟩ := by
  constructor <;> rfl

/-! ## The flag `copied` -/

theorem applyOp_copied {α : Type} (idx : Int → Int → Int) (idxPOI : List Nat)
    (s : NodeMem α) (o : Op α) :
    (applyOp idx idxPOI s o).node.copied =
      match o with
      | .run _ _ => false
      | .copyIntermediate _ => true
      | _ => s.node.copied := by
  cases o with
  | run t m => simp [applyOp, run]
  | copyIntermediate d =>
    simp only [applyOp, copyIntermediate]
    split_ifs with h
    · exact h
    · rfl
  | copyFromGPU d1 d2 => simp [applyOp, copyFromGPU]
  | copyPOIs d =>
    simp only [applyOp, copyPOIs]
    split_ifs <;> rfl

theorem pendingRun_cons {α : Type} (o : Op α) (rest : List (Op α)) :
    PendingRun (o :: rest) ↔
      ((∃ t m, o = Op.run t m) ∧ ∀ q ∈ rest, q.isCopyIntermediate = false) ∨
      PendingRun rest := by
  constructor
  · rintro ⟨pre, post, t, m, h, hpost⟩
    cases pre with
    | nil =>
      simp only [List.nil_append, List.cons.injEq] at h
      obtain ⟨h1, h2⟩ := h
      subst h2
      exact Or.inl ⟨⟨t, m, h1⟩, hpost⟩
    | cons a pre2 =>
      simp only [List.cons_append, List.cons.injEq] at h
      exact Or.inr ⟨pre2, post, t, m, h.2, hpost⟩
  · rintro (⟨⟨t, m, rfl⟩, h⟩ | ⟨pre, post, t, m, h, hpost⟩)
    · exact ⟨[], rest, t, m, rfl, h⟩
    · exact ⟨o :: pre, post, t, m, by rw [h]; rfl, hpost⟩

/-- The flag after a sequence of calls started in any state. -/
theorem applyOps_copied_false_iff {α : Type} (idx : Int → Int → Int) (idxPOI : List Nat)
    (s : NodeMem α) (ops : List (Op α)) :
    (applyOps idx idxPOI s ops).node.copied = false ↔
      PendingRun ops ∨
      (s.node.copied = false ∧ ∀ o ∈ ops, o.isCopyIntermediate = false) := by
  induction ops generalizing s with
  | nil =>
    simp only [applyOps, List.foldl_nil, List.not_mem_nil, false_implies, implies_true,
      and_true]
    constructor
    · exact Or.inr
    · rintro (⟨pre, post, t, m, h, _⟩ | h)
      · cases pre <;> simp at h
      · exact h
  | cons o rest ih =>
    have hstep : applyOps idx idxPOI s (o :: rest)
        = applyOps idx idxPOI (applyOp idx idxPOI s o) rest := rfl
    rw [hstep, ih, pendingRun_cons, applyOp_copied]
    cases o with
    | run t m =>
      simp only [List.mem_cons, forall_eq_or_imp, Op.isCopyIntermediate, true_and]
      constructor
      · rintro (h | h)
        · exact Or.inl (Or.inr h)
        · exact Or.inl (Or.inl ⟨⟨t, m, rfl⟩, h⟩)
      · rintro ((⟨_, h⟩ | h) | ⟨_, h⟩)
        · exact Or.inr h
        · exact Or.inl h
        · exact Or.inr h
    | copyIntermediate d =>
      simp [Op.isCopyIntermediate]
    | copyFromGPU d1 d2 =>
      simp [Op.isCopyIntermediate]
    | copyPOIs d =>
      simp [Op.isCopyIntermediate]

/-- Claim C12: the dirty-flag protocol.  For every finite sequence of the
calls `run`, `copyIntermediate`, `copyFromGPU` and `copyPOIs` applied to a
freshly constructed node, the host height mirror is marked stale
(`copied == false`) exactly when the sequence contains a `run()` with no
`copyIntermediate()` after it; so it is stale after any `run()` and current
after any explicit pull-back `copyIntermediate()`. -/
theorem copied_false_iff_pending_run {α : Type} (idx : Int → Int → Int) (idxPOI : List Nat)
    (raw : NodeMem α) (ops : List (Op α)) :
    ((applyOps idx idxPOI { raw with node := raw.node.construct } ops).node.copied = false ↔
      ∃ pre post parTime MinMax,
        ops = pre ++ Op.run parTime MinMax :: post ∧
        ∀ o ∈ post, o.isCopyIntermediate = false) ∧
    (∀ parTime MinMax,
      (applyOps idx idxPOI { raw with node := raw.node.construct }
        (ops ++ [Op.run parTime MinMax])).node.copied = false) ∧
    (∀ data_h,
      (applyOps idx idxPOI { raw with node := raw.node.construct }
        (ops ++ [Op.copyIntermediate data_h])).node.copied = true) := by
  refine ⟨?_, ?_, ?_⟩
  · rw [applyOps_copied_false_iff]
    simp [CGpuNode.construct, PendingRun]
  · intro t m
    simp only [applyOps, List.foldl_append, List.foldl_cons, List.foldl_nil]
    rw [applyOp_copied]
  · intro d
    simp only [applyOps, List.foldl_append, List.foldl_cons, List.foldl_nil]
    rw [applyOp_copied]

/-- Claim C12 at a concrete input: `copyIntermediate`, `run`, `copyPOIs`,
`copyFromGPU` in this order leave the mirror stale. -/
theorem copied_false_iff_pending_run_witness :
    (applyOps idxPitch4 [4] { NodeMem.zeros staleNode with node := staleNode.construct }
      [Op.copyIntermediate (fun i => 10 + i), Op.run 1 ⟨1, 0, 0, 0⟩,
        Op.copyPOIs (fun i => 20 + i),
        Op.copyFromGPU (fun i => 30 + i) (fun i => 40 + i)]).node.copied = false :=
  (copied_false_iff_pending_run idxPitch4 [4] (NodeMem.zeros staleNode)
      [Op.copyIntermediate (fun i => 10 + i), Op.run 1 ⟨1, 0, 0, 0⟩,
        Op.copyPOIs (fun i => 20 + i),
        Op.copyFromGPU (fun i => 30 + i) (fun i => 40 + i)]).1.2
    ⟨[Op.copyIntermediate (fun i => 10 + i)],
      [Op.copyPOIs (fun i => 20 + i), Op.copyFromGPU (fun i => 30 + i) (fun i => 40 + i)],
      1, ⟨1, 0, 0, 0⟩, rfl, by simp [Op.isCopyIntermediate]⟩

theorem copyPOIsLoop_apply {α : Type} (idx : Int → Int → Int) (dp : Params)
    (data_h : Buffer α) (idxPOI : List Nat) (h : Buffer α) (k : Nat) :
    copyPOIsLoop idx dp data_h idxPOI h k =
      if k ∈ idxPOI then data_h (poiDeviceOffset idx dp k) else h k := by
  induction idxPOI generalizing h with
  | nil => simp [copyPOIsLoop]
  | cons p rest ih =>
    simp only [copyPOIsLoop, ih, List.mem_cons]
    by_cases h1 : k ∈ rest
    · simp [h1]
    · by_cases h2 : k = p
      · subst h2
        simp [h1]
      · simp [h1, h2]

/-- Claim C13 as stated fails: on a stale 2 × 3 node with the single point of
interest 4, `copyPOIs()` returns with `copied` still `false` and with host
element 0 still at its old value 0, where `copyIntermediate()` stores the
device value 10 and sets `copied`. -/
theorem copyPOIs_is_not_copyIntermediate :
    staleNode.copied = false ∧
    (copyPOIs idxPitch4 [4] (NodeMem.zeros staleNode) (fun i => 10 + i)).node.copied = false ∧
    (copyPOIs idxPitch4 [4] (NodeMem.zeros staleNode) (fun i => 10 + i)).h 0 = 0 ∧
    (copyIntermediate (NodeMem.zeros staleNode) (fun i => 10 + i)).h 0 = 10 ∧
    (copyIntermediate (NodeMem.zeros staleNode) (fun i => 10 + i)).node.copied = true := by
  refine ⟨rfl, rfl, ?_, ?_, rfl⟩
  · simp [copyPOIs, NodeMem.zeros, staleNode, run, copyPOIsLoop_apply]
  · simp [copyIntermediate, NodeMem.zeros, staleNode, run, nodeWith, Params.count2D,
      AlignData, alignRows, moveRange, hipMemcpy, Function.update_apply]

/-- Claim C13, amended: a point-of-interest request made while the host
height mirror is stale pulls back the requested points only.  For every state
with `copied == false`, `copyPOIs()` stores to each host element
`h[idxPOI[n]]` the device element `data.h[dp.lpad + idx(i, j)]` with
`i = idxPOI[n] / nJ + 1`, `j = idxPOI[n] % nJ + 1`, leaves every other host
height element, the other host fields and the staging arrays as they were,
and leaves the node unchanged, so `copied` is still `false` on return. -/
theorem copyPOIs_stale (α : Type) (idx : Int → Int → Int) (idxPOI : List Nat)
    (s : NodeMem α) (data_h : Buffer α) (hstale : s.node.copied = false) :
    (∀ p ∈ idxPOI, (copyPOIs idx idxPOI s data_h).h p
      = data_h (poiDeviceOffset idx s.node.params p)) ∧
    (∀ k, k ∉ idxPOI → (copyPOIs idx idxPOI s data_h).h k = s.h k) ∧
    (copyPOIs idx idxPOI s data_h).node = s.node ∧
    (copyPOIs idx idxPOI s data_h).node.copied = false ∧
    (copyPOIs idx idxPOI s data_h).hMax = s.hMax ∧
    (copyPOIs idx idxPOI s data_h).tArr = s.tArr ∧
    (copyPOIs idx idxPOI s data_h).h_1D_aligned = s.h_1D_aligned := by
  have hc : copyPOIs idx idxPOI s data_h
      = { s with h := copyPOIsLoop idx s.node.params data_h idxPOI s.h } := by
    simp [copyPOIs, hstale]
  rw [hc]
  refine ⟨?_, ?_, rfl, hstale, rfl, rfl, rfl⟩
  · intro p hp
    simp [copyPOIsLoop_apply, hp]
  · intro k hk
    simp [copyPOIsLoop_apply, hk]

/-- Claim C13 (amended) at a concrete input: the stale 2 × 3 node with the
points of interest 4 and 1; point 4 is row 2, column 2, device offset 5. -/
theorem copyPOIs_stale_witness :
    staleNode.copied = false ∧
    (copyPOIs idxPitch4 [4, 1] (NodeMem.zeros staleNode) (fun i => 10 + i)).h 4 = 10 + 5 ∧
    (copyPOIs idxPitch4 [4, 1] (NodeMem.zeros staleNode) (fun i => 10 + i)).h 0 = 0 ∧
    (copyPOIs idxPitch4 [4, 1] (NodeMem.zeros staleNode) (fun i => 10 + i)).node.copied
      = false :=
  ⟨rfl,
    (copyPOIs_stale Nat idxPitch4 [4, 1] (NodeMem.zeros staleNode) (fun i => 10 + i) rfl).1
      4 (by decide),
    (copyPOIs_stale Nat idxPitch4 [4, 1] (NodeMem.zeros staleNode) (fun i => 10 + i) rfl).2.1
      0 (by decide),
    (copyPOIs_stale Nat idxPitch4 [4, 1] (NodeMem.zeros staleNode) (fun i => 10 + i)
      rfl).2.2.2.1⟩

/-! ## Allocation -/

/-- What `mallocMem()` returns when the probe reports a non-zero pitch. -/
theorem mallocMem_some (node : CGpuNode) (NLon NLat : Int) (pitch : Nat) (hpitch : pitch ≠ 0) :
    ∃ ops, mallocMem node NLon NLat pitch =
      some ({ node with
                pitch := pitch
                params := { node.params with
                  nI := NLon, nJ := NLat, lpad := 0, pI := pitch / sizeofFloat } }, ops) ∧
      ops.take 2 = [MemOp.hipMallocPitch .pTempPointer (NLat.toNat * sizeofFloat) NLon.toNat,
        MemOp.hipFree .pTempPointer] ∧
      ops.drop 2 =
        (fields2D.map (fun b => MemOp.hipMalloc b (pitch * sizeofFloat * NLon.toNat))) ++
        [MemOp.hipMalloc .cR6 (NLat.toNat * sizeofFloat),
          MemOp.hipMalloc .cB1 (NLon.toNat * sizeofFloat),
          MemOp.hipMalloc .cB2 (NLat.toNat * sizeofFloat),
          MemOp.hipMalloc .cB3 (NLon.toNat * sizeofFloat),
          MemOp.hipMalloc .cB4 (NLat.toNat * sizeofFloat),
          MemOp.hipMalloc .g_MinMax sizeofInt4] := by
  simp only [mallocMem, hpitch, if_false]
  exact ⟨_, rfl, by simp, by simp [fields2D]⟩

/-- The probe aborts the allocation when it reports a zero pitch. -/
theorem mallocMem_zero_pitch (node : CGpuNode) (NLon NLat : Int) :
    mallocMem node NLon NLat 0 = none := by
  simp [mallocMem]

/-- Claim C14 as stated fails: for a grid with `nCols = 5` and the pitch
`20 = nCols * sizeof(float)`, `mallocMem()` sets `pI = 20 / 4 = 5`, which is
not a multiple of 4. -/
theorem mallocMem_pI_not_multiple_of_4 :
    (1 : Int) ≤ 1 ∧ (1 : Int) ≤ 5 ∧ 20 ≠ 0 ∧ 5 * sizeofFloat ≤ 20 ∧
    (mallocMem freshNode 1 5 20).map (fun r => r.1.params.pI) = some 5 ∧
    ¬ (4 ∣ 5) := by
  decide

/-- Claim C14, amended: for every `nRows ≥ 1`, `nCols ≥ 1` and every non-zero
byte pitch with `pitch ≥ nCols * sizeof(float)`, `mallocMem()` succeeds and
the storage width `dp.pI = pitch / sizeof(float)` satisfies `pI ≥ nCols`; `pI`
is a multiple of 4 exactly when `pitch % 16 < 4`, so in particular whenever
the reported pitch is a multiple of 16 bytes. -/
theorem mallocMem_storage_width (node : CGpuNode) (NLon NLat : Int) (pitch : Nat)
    (_hrows : 1 ≤ NLon) (hcols : 1 ≤ NLat) (hpitch : pitch ≠ 0)
    (hwide : NLat.toNat * sizeofFloat ≤ pitch) :
    ∃ node2 ops, mallocMem node NLon NLat pitch = some (node2, ops) ∧
      node2.params.pI = pitch / sizeofFloat ∧
      NLat ≤ (node2.params.pI : Int) ∧
      (4 ∣ node2.params.pI ↔ pitch % 16 < 4) ∧
      (16 ∣ pitch → 4 ∣ node2.params.pI) := by
  obtain ⟨ops, h, _⟩ := mallocMem_some node NLon NLat pitch hpitch
  refine ⟨_, ops, h, rfl, ?_, ?_, ?_⟩ <;> simp only [sizeofFloat] at * <;> omega

/-- Claim C14 (amended) at a concrete input: a 100 × 100 grid with the pitch
512 bytes gives `pI = 128`. -/
theorem mallocMem_storage_width_witness :
    ((1 : Int) ≤ 100 ∧ 512 ≠ 0 ∧ (100 : Int).toNat * sizeofFloat ≤ 512) ∧
    ∃ node2 ops, mallocMem freshNode 100 100 512 = some (node2, ops) ∧
      node2.params.pI = 512 / sizeofFloat ∧
      (100 : Int) ≤ (node2.params.pI : Int) ∧
      (4 ∣ node2.params.pI ↔ 512 % 16 < 4) ∧
      (16 ∣ 512 → 4 ∣ node2.params.pI) :=
  ⟨by decide,
    mallocMem_storage_width freshNode 100 100 512 (by decide) (by decide) (by decide)
      (by decide)⟩

/-- The byte counts `mallocMem()` requests: `pitch * sizeof(float) * nI` for
each 2D field, `nI * sizeof(float)` for `cB1`, `cB3` and `nJ * sizeof(float)`
for `cR6`, `cB2`, `cB4`. -/
theorem mallocMem_requests (node : CGpuNode) (NLon NLat : Int) (pitch : Nat)
    (hpitch : pitch ≠ 0) :
    ∃ node2 ops, mallocMem node NLon NLat pitch = some (node2, ops) ∧
      (∀ b ∈ fields2D, requestedBytes ops b = [pitch * sizeofFloat * NLon.toNat]) ∧
      requestedBytes ops .cB1 = [NLon.toNat * sizeofFloat] ∧
      requestedBytes ops .cB3 = [NLon.toNat * sizeofFloat] ∧
      requestedBytes ops .cR6 = [NLat.toNat * sizeofFloat] ∧
      requestedBytes ops .cB2 = [NLat.toNat * sizeofFloat] ∧
      requestedBytes ops .cB4 = [NLat.toNat * sizeofFloat] := by
  simp only [mallocMem, hpitch, if_false]
  refine ⟨_, _, rfl, ?_, ?_, ?_, ?_, ?_, ?_⟩
  · intro b hb
    simp only [fields2D, List.mem_cons, List.mem_singleton, List.not_mem_nil, or_false] at hb
    rcases hb with h | h | h | h | h | h | h | h | h <;> subst h <;>
      simp [requestedBytes, MemOp.requestFor]
  all_goals simp [requestedBytes, MemOp.requestFor]

/-- Claim C15, evaluated on the code: for a 2 × 3 grid and the pitch 16 bytes
(`pI = 4`), `mallocMem()` requests `16 * sizeof(float) * 2 = 128` bytes for
the 2D field `d`, four times the `nRows * pI * sizeof(float) = 32` bytes of
`nRows * storageWidth` elements; the 1D fields `cB1` and `cR6` get 2 and 3
elements. -/
theorem mallocMem_2D_request_is_fourfold :
    (mallocMem freshNode 2 3 16).map
        (fun r => (r.1.params.pI, requestedBytes r.2 .d, requestedBytes r.2 .tArr,
          requestedBytes r.2 .cB1, requestedBytes r.2 .cR6))
      = some (4, [128], [128], [2 * sizeofFloat], [3 * sizeofFloat]) ∧
    2 * 4 * sizeofFloat = 32 ∧ 128 ≠ 32 := by
  decide

/-- Claim C20: `freeMem()` frees exactly the persistent device buffers that
`mallocMem()` allocated (the nine 2D fields, the five 1D fields, `g_MinMax`),
each exactly once, so nothing is left allocated; and the throwaway probe
`pTempPointer` is allocated and freed by the first two allocator calls of
`mallocMem()` itself. -/
theorem freeMem_frees_what_mallocMem_allocated (node : CGpuNode) (NLon NLat : Int)
    (pitch : Nat) (hpitch : pitch ≠ 0) :
    ∃ node2 ops, mallocMem node NLon NLat pitch = some (node2, ops) ∧
      liveAfter [] ops = fields2D ++ fields1D ++ [DevBuf.g_MinMax] ∧
      freeMem = (fields2D ++ fields1D ++ [DevBuf.g_MinMax]).map MemOp.hipFree ∧
      (freeMem.filterMap MemOp.freed).Nodup ∧
      liveAfter [] (ops ++ freeMem) = [] ∧
      (∃ width height, ops.take 2 =
        [MemOp.hipMallocPitch .pTempPointer width height, MemOp.hipFree .pTempPointer]) ∧
      liveAfter [] (ops.take 2) = [] := by
  simp only [mallocMem, hpitch, if_false]
  refine ⟨_, _, rfl, rfl, rfl, by decide, rfl, ⟨_, _, rfl⟩, rfl⟩

/-- Claim C20 at a concrete input: a 100 × 100 grid with the pitch 512. -/
theorem freeMem_frees_what_mallocMem_allocated_witness :
    512 ≠ 0 ∧
    ∃ node2 ops, mallocMem freshNode 100 100 512 = some (node2, ops) ∧
      liveAfter [] ops = fields2D ++ fields1D ++ [DevBuf.g_MinMax] ∧
      freeMem = (fields2D ++ fields1D ++ [DevBuf.g_MinMax]).map MemOp.hipFree ∧
      (freeMem.filterMap MemOp.freed).Nodup ∧
      liveAfter [] (ops ++ freeMem) = [] ∧
      (∃ width height, ops.take 2 =
        [MemOp.hipMallocPitch .pTempPointer width height, MemOp.hipFree .pTempPointer]) ∧
      liveAfter [] (ops.take 2) = [] :=
  ⟨by decide, freeMem_frees_what_mallocMem_allocated freshNode 100 100 512 (by decide)⟩

/-! ## The device operations of a step -/

/-- Claim C16: kernel order.  In both build configurations and for every
state, the kernels launched by one `run()` are, in this order and each exactly
once, wave-update, wave-boundary, flux-update, flux-boundary, grid-extension;
the expansion signal is read back once, after all five launches and before no
launch. -/
theorem run_kernel_order (profiling : Bool) (node : CGpuNode) :
    (runDeviceOps profiling node).filterMap DeviceOp.kernel =
      [.runWaveUpdateKernel, .runWaveBoundaryKernel, .runFluxUpdateKernel,
        .runFluxBoundaryKernel, .runGridExtendKernel] ∧
    ∃ pre post, runDeviceOps profiling node = pre ++ DeviceOp.memcpyMinMaxToHost :: post ∧
      pre.filterMap DeviceOp.kernel =
        [.runWaveUpdateKernel, .runWaveBoundaryKernel, .runFluxUpdateKernel,
          .runFluxBoundaryKernel, .runGridExtendKernel] ∧
      post.filterMap DeviceOp.kernel = [] ∧
      DeviceOp.memcpyMinMaxToHost ∉ pre ∧ DeviceOp.memcpyMinMaxToHost ∉ post := by
  cases profiling with
  | false =>
    refine ⟨rfl, (runDeviceOps false node).take 7, (runDeviceOps false node).drop 8,
      rfl, rfl, rfl, ?_, ?_⟩ <;> simp [runDeviceOps]
  | true =>
    refine ⟨rfl, (runDeviceOps true node).take 16, (runDeviceOps true node).drop 17,
      rfl, rfl, rfl, ?_, ?_⟩ <;> simp [runDeviceOps, List.range]

/-- Claim C17 as stated fails: in both build configurations the calls that
`run()` issues before the clear of `g_MinMax` already launch four kernels, the
wave-update kernel first. -/
theorem run_clear_follows_wave_update :
    ((runDeviceOps false (nodeWith 100 100 48 52 48 52)).takeWhile
        (fun o => decide (o ≠ DeviceOp.memsetMinMax))).filterMap DeviceOp.kernel =
      [.runWaveUpdateKernel, .runWaveBoundaryKernel, .runFluxUpdateKernel,
        .runFluxBoundaryKernel] ∧
    ((runDeviceOps true (nodeWith 100 100 48 52 48 52)).takeWhile
        (fun o => decide (o ≠ DeviceOp.memsetMinMax))).filterMap DeviceOp.kernel =
      [.runWaveUpdateKernel, .runWaveBoundaryKernel, .runFluxUpdateKernel,
        .runFluxBoundaryKernel] := by
  decide

/-- Claim C17, amended: in every `run()`, in both build configurations, the
expansion signal is reset to zero exactly once, after the launches of the
wave-update, wave-boundary, flux-update and flux-boundary kernels and before
the launch of the grid-extension kernel and the read-back of the signal. -/
theorem run_clear_before_grid_extend (profiling : Bool) (node : CGpuNode) :
    ∃ pre post, runDeviceOps profiling node = pre ++ DeviceOp.memsetMinMax :: post ∧
      DeviceOp.memsetMinMax ∉ pre ∧ DeviceOp.memsetMinMax ∉ post ∧
      pre.filterMap DeviceOp.kernel =
        [.runWaveUpdateKernel, .runWaveBoundaryKernel, .runFluxUpdateKernel,
          .runFluxBoundaryKernel] ∧
      post.filterMap DeviceOp.kernel = [.runGridExtendKernel] ∧
      DeviceOp.memcpyMinMaxToHost ∉ pre ∧ DeviceOp.memcpyMinMaxToHost ∈ post := by
  cases profiling with
  | false =>
    refine ⟨(runDeviceOps false node).take 4, (runDeviceOps false node).drop 5,
      rfl, ?_, ?_, rfl, rfl, ?_, ?_⟩ <;> simp [runDeviceOps]
  | true =>
    refine ⟨(runDeviceOps true node).take 13, (runDeviceOps true node).drop 14,
      rfl, ?_, ?_, rfl, rfl, ?_, ?_⟩ <;> simp [runDeviceOps, List.range]

/-- Claim C19 as stated fails: with the event calls removed, the calls of the
profiling build are four launches, the clear, the grid-extension launch and
the read-back; the build without profiling issues `hipDeviceSynchronize()`
between the last launch and the read-back, the profiling build does not. -/
theorem run_profiling_drops_synchronize :
    ((runDeviceOps true (nodeWith 100 100 48 52 48 52)).filter (fun o => !o.isEvent)).length = 7 ∧
    (runDeviceOps false (nodeWith 100 100 48 52 48 52)).length = 8 ∧
    DeviceOp.deviceSynchronize ∈ runDeviceOps false (nodeWith 100 100 48 52 48 52) ∧
    DeviceOp.deviceSynchronize ∉ runDeviceOps true (nodeWith 100 100 48 52 48 52) ∧
    (runDeviceOps true (nodeWith 100 100 48 52 48 52)).filter (fun o => !o.isEvent) ≠
      runDeviceOps false (nodeWith 100 100 48 52 48 52) := by
  decide

/-- Claim C19, amended: for every state, the device calls that `run()` issues
with kernel profiling enabled, once the event-record and elapsed-time calls
are removed, equal the calls it issues with profiling disabled once the
`hipDeviceSynchronize()` of that build is removed (the profiling build issues
no synchronize; the build without profiling issues no event call); the
launches carry the same geometry, and the resulting node, with its active
region and its flag `copied`, is the same in both builds. -/
theorem run_profiling_same_calls_but_synchronize (node : CGpuNode) (parTime : Int)
    (MinMax : Int4) :
    (runDeviceOps true node).filter (fun o => !o.isEvent) =
      (runDeviceOps false node).filter (fun o => decide (o ≠ DeviceOp.deviceSynchronize)) ∧
    (runDeviceOps false node).filter (fun o => !o.isEvent) = runDeviceOps false node ∧
    DeviceOp.deviceSynchronize ∉ runDeviceOps true node ∧
    (runConfigured true node parTime MinMax).1 = (runConfigured false node parTime MinMax).1 ∧
    (runConfigured true node parTime MinMax).1.region =
      (runConfigured false node parTime MinMax).1.region ∧
    (runConfigured true node parTime MinMax).1.copied =
      (runConfigured false node parTime MinMax).1.copied := by
  refine ⟨?_, ?_, ?_, rfl, rfl, rfl⟩
  · simp [runDeviceOps, List.range, List.filter, DeviceOp.isEvent]
  · simp [runDeviceOps, List.filter, DeviceOp.isEvent]
  · simp [runDeviceOps, List.range]

/-! ## Launch geometry -/

/-- Magnitudes up to `2 ^ 24` convert to `float` exactly. -/
theorem floatOfNat_exact (n : Nat) (h : n ≤ 2 ^ 24) : floatOfNat n = n := by
  rcases Nat.lt_or_ge n (2 ^ 24) with hlt | hge
  · have hs : droppedBits 8 n = 0 := by
      simp only [droppedBits, hlt, if_true]
    have hr : n % 1 = 0 := Nat.mod_one n
    simp [floatOfNat, hs, hr]
  · have : n = 2 ^ 24 := Nat.le_antisymm h hge
    subst this
    decide

theorem floatOfInt_exact (z : Int) (h0 : 0 ≤ z) (h : z ≤ 2 ^ 24) : floatOfInt z = z := by
  have hn : z.natAbs ≤ 2 ^ 24 := by omega
  have hz : ¬ z < 0 := by omega
  simp only [floatOfInt, hz, if_false, floatOfNat_exact _ hn]
  omega

/-- For an extent `0 ≤ v ≤ 2 ^ 24` and a positive thread count `t`, the
expression `ceil((float)v / (float)t)` is the least integer `b` with
`b * t ≥ v`. -/
theorem ceilDivFloat_least (v t : Int) (h0 : 0 ≤ v) (h : v ≤ 2 ^ 24) (ht : 0 < t) :
    v ≤ ceilDivFloat v t * t ∧ (ceilDivFloat v t - 1) * t < v ∧
    ∀ b : Int, v ≤ b * t → ceilDivFloat v t ≤ b := by
  have h1 : (-v) / t * t ≤ -v := Int.ediv_mul_le (-v) (ne_of_gt ht)
  have h2 : -v < ((-v) / t + 1) * t := Int.lt_ediv_add_one_mul_self (-v) ht
  simp only [ceilDivFloat, floatOfInt_exact v h0 h]
  refine ⟨by linarith, by linarith, ?_⟩
  intro b hb
  by_contra hlt
  have h3 : b + 1 ≤ -((-v) / t) := by omega
  have h4 : (b + 1) * t ≤ -((-v) / t) * t := Int.mul_le_mul_of_nonneg_right h3 (le_of_lt ht)
  linarith

/-- The geometry of `run()` covers the active rectangle with the least number
of whole blocks as long as the extents `NJ`, `NI` and `max(nI, nJ)` do not
exceed `2 ^ 24 = 16777216`, the largest range of integers that `float` holds
exactly. -/
theorem launchGeometry_least_cover (dp : Params)
    (hJ1 : 1 ≤ dp.jMax - dp.jMin + 1) (hJ2 : dp.jMax - dp.jMin + 1 ≤ 2 ^ 24)
    (hI1 : 1 ≤ dp.iMax - dp.iMin + 1) (hI2 : dp.iMax - dp.iMin + 1 ≤ 2 ^ 24)
    (hN1 : 0 ≤ max dp.nI dp.nJ) (hN2 : max dp.nI dp.nJ ≤ 2 ^ 24) :
    (launchGeometry dp).threads = ⟨32, 8, 1⟩ ∧ (launchGeometry dp).nThreads = 256 ∧
    (dp.jMax - dp.jMin + 1 ≤ (launchGeometry dp).blocks.x * 32 ∧
      ((launchGeometry dp).blocks.x - 1) * 32 < dp.jMax - dp.jMin + 1) ∧
    (dp.iMax - dp.iMin + 1 ≤ (launchGeometry dp).blocks.y * 8 ∧
      ((launchGeometry dp).blocks.y - 1) * 8 < dp.iMax - dp.iMin + 1) ∧
    (max dp.nI dp.nJ ≤ (launchGeometry dp).nBlocks * 256 ∧
      ((launchGeometry dp).nBlocks - 1) * 256 < max dp.nI dp.nJ) := by
  have hx := ceilDivFloat_least (dp.jMax - dp.jMin + 1) 32 (by omega) hJ2 (by decide)
  have hy := ceilDivFloat_least (dp.iMax - dp.iMin + 1) 8 (by omega) hI2 (by decide)
  have hn := ceilDivFloat_least (max dp.nI dp.nJ) 256 hN1 hN2 (by decide)
  have h8 : Int.tdiv 256 32 = 8 := by decide
  refine ⟨?_, rfl, ?_, ?_, ?_⟩
  · simp only [launchGeometry, h8]
  · exact ⟨hx.1, hx.2.1⟩
  · simpa only [launchGeometry, h8] using And.intro hy.1 hy.2.1
  · exact ⟨hn.1, hn.2.1⟩

/-- Claim C18, evaluated on the code: on a 4 × 16777220 grid with the active
region `(2, 3, 2, 16777218)` the extent is `NJ = 16777217 = 2 ^ 24 + 1`;
`(float)NJ` rounds to `16777216`, so `run()` computes `xBlocks = 524288`, and
`524288 * 32 = 16777216 < NJ`: the blocks do not cover the last column of the
active rectangle, and `xBlocks` is not the least integer with
`xBlocks * 32 ≥ NJ`. -/
theorem launchGeometry_misses_last_column :
    RegionInv 4 16777220 (nodeWith 4 16777220 2 3 2 16777218).region ∧
    (nodeWith 4 16777220 2 3 2 16777218).params.jMax
      - (nodeWith 4 16777220 2 3 2 16777218).params.jMin + 1 = 16777217 ∧
    floatOfInt 16777217 = 16777216 ∧
    (launchGeometry (nodeWith 4 16777220 2 3 2 16777218).params).blocks.x = 524288 ∧
    (launchGeometry (nodeWith 4 16777220 2 3 2 16777218).params).blocks.x * 32 < 16777217 := by
  decide

/-! ## Alignment of the left bound -/

/-- Claim C22: left-boundary alignment in `copyToGPU()`.  For every configured
`Jmin ≥ 2`, the value `Jmin - (Jmin - 2) % 32` that `copyToGPU()` stores as the
host `Jmin` and the device `jMin` satisfies `(jMin - 2) % 32 = 0`,
`2 ≤ jMin ≤ Jmin` and `Jmin - jMin ≤ 31`, while `Imin`, `Imax` and `Jmax` are
passed to the device unchanged. -/
theorem copyToGPU_left_alignment (node : CGpuNode) (hJ : 2 ≤ node.Jmin) :
    (copyToGPU node).params.jMin = node.Jmin - Int.tmod (node.Jmin - 2) 32 ∧
    (copyToGPU node).Jmin = (copyToGPU node).params.jMin ∧
    Int.tmod ((copyToGPU node).params.jMin - 2) 32 = 0 ∧
    2 ≤ (copyToGPU node).params.jMin ∧
    (copyToGPU node).params.jMin ≤ node.Jmin ∧
    node.Jmin - (copyToGPU node).params.jMin ≤ 31 ∧
    (copyToGPU node).params.iMin = node.Imin ∧
    (copyToGPU node).params.iMax = node.Imax ∧
    (copyToGPU node).params.jMax = node.Jmax ∧
    (copyToGPU node).Imin = node.Imin ∧
    (copyToGPU node).Imax = node.Imax ∧
    (copyToGPU node).Jmax = node.Jmax := by
  have h1 : Int.tmod (node.Jmin - 2) 32 = (node.Jmin - 2) % 32 :=
    Int.tmod_eq_emod (by omega) (by decide)
  have h2 : Int.tmod (node.Jmin - (node.Jmin - 2) % 32 - 2) 32
      = (node.Jmin - (node.Jmin - 2) % 32 - 2) % 32 :=
    Int.tmod_eq_emod (by omega) (by decide)
  have e : (copyToGPU node).params.jMin = node.Jmin - Int.tmod (node.Jmin - 2) 32 := rfl
  refine ⟨e, rfl, ?_, ?_, ?_, ?_, rfl, rfl, rfl, rfl, rfl, rfl⟩
  · rw [e, h1, h2]
    omega
  · rw [e, h1]
    omega
  · rw [e, h1]
    omega
  · rw [e, h1]
    omega

/-- Claim C22 at a concrete input: `Jmin = 48` is aligned to `34 = 2 + 32`. -/
theorem copyToGPU_left_alignment_witness :
    2 ≤ (nodeWith 100 100 48 52 48 52).Jmin ∧
    (copyToGPU (nodeWith 100 100 48 52 48 52)).params.jMin = 48 - Int.tmod (48 - 2) 32 ∧
    Int.tmod ((copyToGPU (nodeWith 100 100 48 52 48 52)).params.jMin - 2) 32 = 0 ∧
    (copyToGPU (nodeWith 100 100 48 52 48 52)).params.jMin = 34 :=
  ⟨by decide,
    (copyToGPU_left_alignment (nodeWith 100 100 48 52 48 52) (by decide)).1,
    (copyToGPU_left_alignment (nodeWith 100 100 48 52 48 52) (by decide)).2.2.1,
    by decide⟩

/-- An aligned left bound stays aligned, and does not rise, over any sequence
of steps. -/
theorem runSteps_jMin_aligned (node : CGpuNode) (steps : List (Int × Int4))
    (h2 : 2 ≤ node.params.jMin) (hal : (node.params.jMin - 2) % 32 = 0) :
    2 ≤ (runSteps node steps).params.jMin ∧
    ((runSteps node steps).params.jMin - 2) % 32 = 0 ∧
    (runSteps node steps).params.jMin ≤ node.params.jMin := by
  induction steps generalizing node with
  | nil => exact ⟨h2, hal, le_refl _⟩
  | cons st rest ih =>
    have e := run_jMin node st.1 st.2
    have hstep : 2 ≤ (run node st.1 st.2).params.jMin ∧
        ((run node st.1 st.2).params.jMin - 2) % 32 = 0 ∧
        (run node st.1 st.2).params.jMin ≤ node.params.jMin := by
      rw [e]
      split_ifs <;> omega
    have := ih (run node st.1 st.2) hstep.1 hstep.2.1
    exact ⟨this.1, this.2.1, le_trans this.2.2 hstep.2.2⟩

/-- Claim C23: the left-boundary alignment is an invariant of the step loop.
If `(jMin - 2) % 32 = 0` and `jMin ≥ 2` before `run()`, then for every
expansion signal the same holds after `run()`, and the step either leaves
`jMin` unchanged or lowers it by exactly 32 (the clamp to 2 never cuts a
partial step); so after any sequence of steps `jMin` is still of the form
`2 + 32 * k`, aligned and not above its initial value. -/
theorem run_keeps_left_alignment (node : CGpuNode) (steps : List (Int × Int4))
    (h2 : 2 ≤ node.params.jMin) (hal : Int.tmod (node.params.jMin - 2) 32 = 0) :
    (∀ (parTime : Int) (MinMax : Int4),
      2 ≤ (run node parTime MinMax).params.jMin ∧
      Int.tmod ((run node parTime MinMax).params.jMin - 2) 32 = 0 ∧
      ((run node parTime MinMax).params.jMin = node.params.jMin ∨
        (run node parTime MinMax).params.jMin = node.params.jMin - 32)) ∧
    2 ≤ (runSteps node steps).params.jMin ∧
    Int.tmod ((runSteps node steps).params.jMin - 2) 32 = 0 ∧
    (runSteps node steps).params.jMin ≤ node.params.jMin ∧
    ∃ k : Nat, (runSteps node steps).params.jMin = 2 + 32 * (k : Int) := by
  have hal2 : (node.params.jMin - 2) % 32 = 0 := by
    rw [← Int.tmod_eq_emod (by omega) (by decide)]
    exact hal
  refine ⟨?_, ?_⟩
  · intro parTime MinMax
    have e := run_jMin node parTime MinMax
    have hge : 2 ≤ (run node parTime MinMax).params.jMin := by
      rw [e]
      split_ifs <;> omega
    refine ⟨hge, ?_, ?_⟩
    · rw [Int.tmod_eq_emod (by omega) (by decide), e]
      split_ifs <;> omega
    · rw [e]
      split_ifs <;> omega
  · obtain ⟨ha, hb, hc⟩ := runSteps_jMin_aligned node steps h2 hal2
    refine ⟨ha, ?_, hc, ?_⟩
    · rw [Int.tmod_eq_emod (by omega) (by decide)]
      exact hb
    · exact ⟨(((runSteps node steps).params.jMin - 2) / 32).toNat, by omega⟩

/-- Claim C23 at a concrete input: from the aligned bound `jMin = 34` that
`copyToGPU()` leaves for `Jmin = 48`, two steps with `growLow_j` set give 2 and
then 2 again. -/
theorem run_keeps_left_alignment_witness :
    (2 ≤ (copyToGPU (nodeWith 100 100 48 52 48 52)).params.jMin ∧
      Int.tmod ((copyToGPU (nodeWith 100 100 48 52 48 52)).params.jMin - 2) 32 = 0) ∧
    (∀ (parTime : Int) (MinMax : Int4),
      2 ≤ (run (copyToGPU (nodeWith 100 100 48 52 48 52)) parTime MinMax).params.jMin ∧
      Int.tmod ((run (copyToGPU (nodeWith 100 100 48 52 48 52)) parTime MinMax).params.jMin - 2)
        32 = 0 ∧
      ((run (copyToGPU (nodeWith 100 100 48 52 48 52)) parTime MinMax).params.jMin
          = (copyToGPU (nodeWith 100 100 48 52 48 52)).params.jMin ∨
        (run (copyToGPU (nodeWith 100 100 48 52 48 52)) parTime MinMax).params.jMin
          = (copyToGPU (nodeWith 100 100 48 52 48 52)).params.jMin - 32)) ∧
    (∃ k : Nat, (runSteps (copyToGPU (nodeWith 100 100 48 52 48 52))
        [(0, ⟨1, 1, 1, 1⟩), (1, ⟨0, 0, 1, 0⟩)]).params.jMin = 2 + 32 * (k : Int)) ∧
    (runSteps (copyToGPU (nodeWith 100 100 48 52 48 52))
        [(0, ⟨1, 1, 1, 1⟩), (1, ⟨0, 0, 1, 0⟩)]).params.jMin = 2 :=
  ⟨by decide,
    (run_keeps_left_alignment (copyToGPU (nodeWith 100 100 48 52 48 52))
      [(0, ⟨1, 1, 1, 1⟩), (1, ⟨0, 0, 1, 0⟩)] (by decide) (by decide)).1,
    (run_keeps_left_alignment (copyToGPU (nodeWith 100 100 48 52 48 52))
      [(0, ⟨1, 1, 1, 1⟩), (1, ⟨0, 0, 1, 0⟩)] (by decide) (by decide)).2.2.2.2,
    by decide⟩

/-! ## Transfers and allocations -/

/-- Claim C24: transfers stay inside the allocations.  For every `nRows ≥ 0`,
`nCols ≥ 1` and `pitch ≥ nCols * sizeof(float)`, `mallocMem()` succeeds, and
with the parameters it leaves, every transfer of `copyToGPU()`,
`copyFromGPU()` and `copyIntermediate()` moves no more bytes than
`mallocMem()` requested for the buffer; for the 2D fields the transfer is
`nRows * pI * sizeof(float)` bytes with `pI = pitch / sizeof(float)` and the
request is `pitch * sizeof(float) * nRows` bytes.  Every offset the to-device
`AlignData` writes is below the staging array length `nRows * pI`; that
covers the highest offset `(nRows - 1) * pI + nCols - 1`, which is written
when `nRows ≥ 1`. -/
theorem transfers_within_allocations (node : CGpuNode) (NLon NLat : Int) (pitch : Nat)
    (_hrows : 0 ≤ NLon) (hcols : 1 ≤ NLat) (hwide : NLat.toNat * sizeofFloat ≤ pitch) :
    ∃ node2 ops, mallocMem node NLon NLat pitch = some (node2, ops) ∧
      node2.params.pI = pitch / sizeofFloat ∧
      node2.params.bytes2D = NLon.toNat * (pitch / sizeofFloat) * sizeofFloat ∧
      (∀ t ∈ copyToGPUTransfers node2.params ++ copyFromGPUTransfers node2.params
            ++ copyIntermediateTransfers node2.params,
        ∃ b, requestedBytes ops t.buf = [b] ∧ t.bytes ≤ b ∧
          (t.buf ∈ fields2D →
            t.bytes = node2.params.bytes2D ∧ b = pitch * sizeofFloat * NLon.toNat)) ∧
      (∀ i ∈ AlignDataWrites NLon.toNat NLat.toNat node2.params.pI,
        i < NLon.toNat * node2.params.pI) ∧
      (NLon - 1) * (node2.params.pI : Int) + NLat - 1 < NLon * (node2.params.pI : Int) ∧
      (1 ≤ NLon →
        (NLon.toNat - 1) * node2.params.pI + NLat.toNat - 1
          ∈ AlignDataWrites NLon.toNat NLat.toNat node2.params.pI) := by
  have hpitch : pitch ≠ 0 := by
    simp only [sizeofFloat] at hwide
    omega
  have hpI : NLat.toNat ≤ pitch / sizeofFloat := by
    simp only [sizeofFloat] at hwide ⊢
    omega
  have hdiv : pitch / sizeofFloat * sizeofFloat ≤ pitch := Nat.div_mul_le_self pitch sizeofFloat
  have h2D : NLon.toNat * (pitch / sizeofFloat) * sizeofFloat
      ≤ pitch * sizeofFloat * NLon.toNat := by
    calc NLon.toNat * (pitch / sizeofFloat) * sizeofFloat
        = NLon.toNat * (pitch / sizeofFloat * sizeofFloat) := by ring
      _ ≤ NLon.toNat * pitch := Nat.mul_le_mul_left _ hdiv
      _ ≤ NLon.toNat * (pitch * sizeofFloat) :=
          Nat.mul_le_mul_left _ (Nat.le_mul_of_pos_right pitch (by decide))
      _ = pitch * sizeofFloat * NLon.toNat := by ring
  have hA : ∀ i ∈ AlignDataWrites NLon.toNat NLat.toNat (pitch / sizeofFloat),
      i < NLon.toNat * (pitch / sizeofFloat) := by
    intro i hi
    obtain ⟨r, hr, _, hlt⟩ := (mem_AlignDataWrites _ _ _ _).1 hi
    have h1 : (r + 1) * (pitch / sizeofFloat) ≤ NLon.toNat * (pitch / sizeofFloat) :=
      Nat.mul_le_mul_right _ hr
    rw [Nat.add_mul] at h1
    omega
  have hB : (NLon - 1) * ((pitch / sizeofFloat : Nat) : Int) + NLat - 1
      < NLon * ((pitch / sizeofFloat : Nat) : Int) := by
    have h3 : NLat ≤ ((pitch / sizeofFloat : Nat) : Int) := by omega
    linarith
  have hC : 1 ≤ NLon → (NLon.toNat - 1) * (pitch / sizeofFloat) + NLat.toNat - 1
      ∈ AlignDataWrites NLon.toNat NLat.toNat (pitch / sizeofFloat) := by
    intro h1
    refine (mem_AlignDataWrites _ _ _ _).2 ⟨NLon.toNat - 1, by omega, ?_, ?_⟩ <;> omega
  simp only [mallocMem, hpitch, if_false]
  refine ⟨_, _, rfl, rfl, rfl, ?_, hA, hB, hC⟩
  intro t ht
  simp only [copyToGPUTransfers, copyFromGPUTransfers, copyIntermediateTransfers,
    List.mem_append, List.mem_cons, List.mem_singleton, List.not_mem_nil, or_false] at ht
  rcases ht with (((h | h | h | h | h | h | h | h | h | h | h | h | h | h) | (h | h)) | h) <;>
    subst h <;>
    simp [requestedBytes, MemOp.requestFor, fields2D, Params.bytes2D, Params.count2D, h2D]

/-- Claim C24 at a concrete input: a 2 × 3 grid with the pitch 16 bytes, so
`pI = 4`; a 2D transfer is 32 bytes, the request 128 bytes, and the highest
offset written by the to-device `AlignData` is 6 < 8. -/
theorem transfers_within_allocations_witness :
    ((0 : Int) ≤ 2 ∧ (1 : Int) ≤ 3 ∧ (3 : Int).toNat * sizeofFloat ≤ 16) ∧
    ∃ node2 ops, mallocMem freshNode 2 3 16 = some (node2, ops) ∧
      node2.params.pI = 16 / sizeofFloat ∧
      node2.params.bytes2D = (2 : Int).toNat * (16 / sizeofFloat) * sizeofFloat ∧
      (∀ t ∈ copyToGPUTransfers node2.params ++ copyFromGPUTransfers node2.params
            ++ copyIntermediateTransfers node2.params,
        ∃ b, requestedBytes ops t.buf = [b] ∧ t.bytes ≤ b ∧
          (t.buf ∈ fields2D →
            t.bytes = node2.params.bytes2D ∧ b = 16 * sizeofFloat * (2 : Int).toNat)) ∧
      (∀ i ∈ AlignDataWrites (2 : Int).toNat (3 : Int).toNat node2.params.pI,
        i < (2 : Int).toNat * node2.params.pI) ∧
      (2 - 1) * (node2.params.pI : Int) + 3 - 1 < 2 * (node2.params.pI : Int) ∧
      ((1 : Int) ≤ 2 →
        ((2 : Int).toNat - 1) * node2.params.pI + (3 : Int).toNat - 1
          ∈ AlignDataWrites (2 : Int).toNat (3 : Int).toNat node2.params.pI) :=
  ⟨by decide,
    transfers_within_allocations freshNode 2 3 16 (by decide) (by decide) (by decide)⟩

end EasyWave

namespace DlInfra

/-- Claim C21: configuration fault on an unrecognized memory policy.
`executeInferenceRun` raises its runtime error if and only if the tensor
memory policy is neither `ALL_MEM_ALLOC_AT_START` nor
`MEM_ALLOC_DEALLOC_EVERY_CONV`; when it raises, no layer allocation,
convolution or deallocation has been performed by the call, and when it does
not raise it returns normally. -/
theorem executeInferenceRun_raises_iff {P A : Type} [DecidableEq P] [DecidableEq A]
    (E : Enumerators P A) (wp : WorkloadParams P A) (noOfConvLayers_ : Int) :
    ((∃ msg, (executeInferenceRun E wp noOfConvLayers_).2 = Except.error msg) ↔
      (wp.tensorMemPolicy ≠ E.ALL_MEM_ALLOC_AT_START ∧
        wp.tensorMemPolicy ≠ E.MEM_ALLOC_DEALLOC_EVERY_CONV)) ∧
    ((∃ msg, (executeInferenceRun E wp noOfConvLayers_).2 = Except.error msg) →
      (executeInferenceRun E wp noOfConvLayers_).1 = []) ∧
    ((wp.tensorMemPolicy = E.ALL_MEM_ALLOC_AT_START ∨
        wp.tensorMemPolicy = E.MEM_ALLOC_DEALLOC_EVERY_CONV) →
      (executeInferenceRun E wp noOfConvLayers_).2 = Except.ok ()) := by
  by_cases h1 : wp.tensorMemPolicy = E.ALL_MEM_ALLOC_AT_START
  · have hv : (executeInferenceRun E wp noOfConvLayers_).2 = Except.ok () := by
      simp only [executeInferenceRun, if_pos h1]
    refine ⟨⟨?_, fun h => absurd h1 h.1⟩, ?_, fun _ => hv⟩
    · rintro ⟨msg, hm⟩
      rw [hv] at hm
      cases hm
    · rintro ⟨msg, hm⟩
      rw [hv] at hm
      cases hm
  · by_cases h2 : wp.tensorMemPolicy = E.MEM_ALLOC_DEALLOC_EVERY_CONV
    · have hv : (executeInferenceRun E wp noOfConvLayers_).2 = Except.ok () := by
        simp only [executeInferenceRun, if_neg h1, if_pos h2]
      refine ⟨⟨?_, fun h => absurd h2 h.2⟩, ?_, fun _ => hv⟩
      · rintro ⟨msg, hm⟩
        rw [hv] at hm
        cases hm
      · rintro ⟨msg, hm⟩
        rw [hv] at hm
        cases hm
    · have hv : executeInferenceRun E wp noOfConvLayers_ = ([], Except.error
          ("TensorMemPolicy is not ALL_MEM_ALLOC_AT_START or MEM_ALLOC_DEALLOC_EVERY_CONV")) := by
        simp only [executeInferenceRun, if_neg h1, if_neg h2]
      refine ⟨⟨fun _ => ⟨h1, h2⟩, fun _ => ⟨_, by rw [hv]⟩⟩, fun _ => by rw [hv], ?_⟩
      rintro (h | h)
      · exact absurd h h1
      · exact absurd h h2

/-- Claim C21 at concrete inputs: the policy numbered 2 is neither of the two
named ones, so the call on a network of three layers raises without a layer
call; with the policy numbered 1 and two layers it returns normally after
allocating, searching, convolving and deallocating layer by layer. -/
theorem executeInferenceRun_raises_iff_witness :
    ((2 : Nat) ≠ numbered.ALL_MEM_ALLOC_AT_START ∧
      (2 : Nat) ≠ numbered.MEM_ALLOC_DEALLOC_EVERY_CONV) ∧
    (∃ msg, (executeInferenceRun numbered ⟨2, 0⟩ 3).2 = Except.error msg) ∧
    (executeInferenceRun numbered ⟨2, 0⟩ 3).1 = [] ∧
    (executeInferenceRun numbered ⟨1, 0⟩ 2).2 = Except.ok () ∧
    (executeInferenceRun numbered ⟨1, 0⟩ 2).1 =
      [.doIOTensorAndWSAllocs 0, .findBestAlgo 0, .doConv 0, .doTensorAndWSDeallocs 0,
        .doIOTensorAndWSAllocs 1, .findBestAlgo 1, .doConv 1, .doTensorAndWSDeallocs 1] :=
  ⟨by decide,
    (executeInferenceRun_raises_iff numbered ⟨2, 0⟩ 3).1.2 (by decide),
    (executeInferenceRun_raises_iff numbered ⟨2, 0⟩ 3).2.1
      ((executeInferenceRun_raises_iff numbered ⟨2, 0⟩ 3).1.2 (by decide)),
    (executeInferenceRun_raises_iff numbered ⟨1, 0⟩ 2).2.2 (Or.inr rfl),
    by decide⟩

end DlInfra
